import Mathlib

/-!
# POSSE browser extension — verification of the cross-site staging pipeline

Shallow embedding of the POSSE repository (background coordinator, source-page
scrapers, Discord composer injector, LinkedIn editor injector) in Lean 4,
together with theorems settling the frozen claims C1–C10 about it.

Conventions of the embedding:
* JavaScript strings are Lean `String`; character-level reasoning goes through
  `String.data`.
* JavaScript `throw` is `Except`; `null`/`undefined` is `Option`.
* The browser URL API (`new URL(value, base)`) is modelled by an executable
  parser/resolver covering the behaviour the code relies on: scheme detection,
  hostname/pathname extraction, resolution of scheme-relative, path-absolute
  and path-relative references, and failure (the constructor throwing) on
  inputs without a parsable scheme/authority.
* DOM subtrees handled by the scrapers are modelled at block granularity
  (paragraphs, figures with images and captions, admonitions, script/style
  blocks, …): exactly the shapes the scraping code distinguishes.
* Asynchronous interleavings (element locator, coordinator messages, body
  maintenance watcher) are modelled as step functions over explicit event
  lists; environment effects (canvas, fetch, FileReader) are oracle inputs.
-/

namespace Posse

/-! ## Small JavaScript string helpers -/

/-- Whitespace as recognised by JavaScript `String.prototype.trim`
(restricted to the ASCII forms the scraped pages use). -/
def jsWhitespace (c : Char) : Bool :=
  c = ' ' ∨ c = '\t' ∨ c = '\n' ∨ c = '\r'

/-- Model of JavaScript `s.trim()`: drop leading and trailing whitespace. -/
def jsTrim (s : String) : String :=
  ⟨((s.data.dropWhile jsWhitespace).reverse.dropWhile jsWhitespace).reverse⟩

/-- Model of JavaScript `s.startsWith(pre)`. -/
def jsStartsWith (s pre : String) : Bool :=
  pre.data.isPrefixOf s.data

/-- Model of JavaScript `s.endsWith(suf)`. -/
def jsEndsWith (s suf : String) : Bool :=
  suf.data.isSuffixOf s.data

/-- Number of leading space characters of a string. -/
def leadingSpaces (s : String) : Nat :=
  (s.data.takeWhile (· = ' ')).length

/-- JavaScript `a || b` on strings (empty string is falsy). -/
def jsOrS (a b : String) : String :=
  if a = "" then b else a

/-- JavaScript `a || b` where `a` is a nullable string (null/undefined or
empty string falls through to `b`). -/
def jsOrOS (a : Option String) (b : String) : String :=
  match a with
  | none => b
  | some s => jsOrS s b

/-- Split a character list on a glyph. -/
def splitChar (g : Char) : List Char → List (List Char)
  | [] => [[]]
  | c :: rest =>
    match splitChar g rest with
    | [] => [[]]
    | h :: t => if c = g then [] :: h :: t else (c :: h) :: t

/-- Model of JavaScript `s.toLowerCase()` (ASCII range). -/
def jsToLower (s : String) : String :=
  ⟨s.data.map Char.toLower⟩

/-! ## URL model

Executable model of the WHATWG URL API as used by the repository:
`new URL(absolute)`, `new URL(value, base)` and `.href`/`.hostname`/
`.pathname`.  Normalisation that the code never depends on (percent-encoding,
case folding, dot-segment removal) is not modelled: `href` of a successfully
parsed absolute URL is the input string itself. -/

/-- Characters allowed in a URL scheme after the first (RFC 3986). -/
def isSchemeChar (c : Char) : Bool :=
  c.isAlpha ∨ c.isDigit ∨ c = '+' ∨ c = '-' ∨ c = '.'

/-- Tail of the scheme test: scheme characters terminated by a colon. -/
def hasSchemeTail : List Char → Bool
  | [] => false
  | c :: rest => if c = ':' then true else isSchemeChar c && hasSchemeTail rest

/-- Does the string start with `scheme:` for a syntactically valid scheme?
This is the "absolute URL" test of the model. -/
def hasScheme (s : String) : Bool :=
  match s.data with
  | [] => false
  | c :: rest => c.isAlpha && hasSchemeTail rest

/-- A wellformed scheme string: nonempty, alphabetic head, scheme chars. -/
def schemeOkB (s : String) : Bool :=
  match s.data with
  | [] => false
  | c :: rest => c.isAlpha && rest.all isSchemeChar

/-- Characters that end the authority component. -/
def endsAuthority (c : Char) : Bool :=
  c = '/' ∨ c = '?' ∨ c = '#'

/-- Characters the model's host parser rejects (the browser URL parser throws
on these inside a host). -/
def badHostChar (c : Char) : Bool :=
  c = '[' ∨ c = ']' ∨ c = ' ' ∨ c = '\\'

/-- Result of parsing an absolute URL: the components the repository reads. -/
structure JsUrl where
  scheme : String
  host : String
  path : String
  href : String
  deriving Repr, DecidableEq

/-- Split `scheme:` off the front of a character list; returns the scheme
characters and the remainder after the colon. -/
def splitSchemeAux : List Char → List Char → Option (List Char × List Char)
  | _, [] => none
  | acc, c :: rest =>
    if c = ':' then some (acc.reverse, rest)
    else if isSchemeChar c then splitSchemeAux (c :: acc) rest
    else none

/-- Split a URL string into scheme and remainder (none if no valid scheme). -/
def splitScheme (s : String) : Option (String × List Char) :=
  match s.data with
  | [] => none
  | c :: rest =>
    if c.isAlpha then
      (splitSchemeAux [c] rest).map (fun p => (⟨p.1⟩, p.2))
    else none

/-- Parse the part after `scheme://`: authority then path.  Fails (the URL
constructor throws) on an empty or malformed host. -/
def parseAuthority (rest : List Char) : Option (String × String) :=
  let auth := rest.takeWhile (fun c => !endsAuthority c)
  let tail := rest.dropWhile (fun c => !endsAuthority c)
  if auth.isEmpty then none
  else if auth.any badHostChar then none
  else
    let host := auth.takeWhile (· ≠ ':')
    let path :=
      match tail with
      | [] => ['/']
      | _ => tail.takeWhile (fun c => c ≠ '?' ∧ c ≠ '#')
    some (⟨host⟩, ⟨path⟩)

/-- Model of `new URL(s)` on an absolute URL string. -/
def parseAbsolute (s : String) : Option JsUrl :=
  match splitScheme s with
  | none => none
  | some (scheme, rest) =>
    match rest with
    | '/' :: '/' :: rest2 =>
      (parseAuthority rest2).map (fun hp =>
        { scheme := scheme, host := hp.1, path := hp.2, href := s })
    | _ =>
      -- non-authority scheme (mailto:, data:, javascript:): empty hostname,
      -- the opaque part is the pathname
      some { scheme := scheme, host := ""
             path := ⟨rest.takeWhile (fun c => c ≠ '?' ∧ c ≠ '#')⟩, href := s }

/-- Directory part of a path: everything up to and including the last `/`
(used for resolving relative references). -/
def dirOfPath (p : String) : String :=
  ⟨((p.data.reverse.dropWhile (· ≠ '/')).reverse)⟩

/-- Model of `new URL(value, base).href`: `none` models the constructor
throwing. -/
def resolveUrl (base : JsUrl) (v : String) : Option String :=
  if hasScheme v then
    (parseAbsolute v).map (fun _ => v)
  else
    match v.data with
    | '/' :: '/' :: rest =>
      (parseAuthority rest).map (fun _ => base.scheme ++ ":" ++ v)
    | '/' :: _ => some (base.scheme ++ "://" ++ base.host ++ v)
    | _ =>
      let d := dirOfPath base.path
      let d := if d = "" then "/" else d
      some (base.scheme ++ "://" ++ base.host ++ d ++ v)

/-- Model of the scrapers' `toAbsoluteUrl`: empty on falsy input, the resolved
href on success, empty when the URL constructor throws. -/
def toAbsoluteUrl (base : JsUrl) (v : String) : String :=
  if v = "" then ""
  else
    match resolveUrl base v with
    | some r => r
    | none => ""

/-- "Absolute URL" in the sense the invariants use: the value carries a URL
scheme. -/
def isAbsoluteUrl (s : String) : Bool := hasScheme s

/-- The attribute-value prefixes `absolutizeAttribute` leaves untouched. -/
def hasSkippedAttrPre (v : String) : Bool :=
  jsStartsWith v "data:" || jsStartsWith v "mailto:" || jsStartsWith v "javascript:"

/-- Model of the scrapers' `absolutizeAttribute` at the value level: empty
values and `data:`/`mailto:`/`javascript:` values are left alone, other
values are replaced by their absolute resolution when the URL constructor
succeeds and left unchanged when it throws. -/
def sanitizeAttr (base : JsUrl) (v : String) : String :=
  if v = "" then v
  else if hasSkippedAttrPre v then v
  else
    match resolveUrl base v with
    | some r => r
    | none => v

/-! ## DOM model for the scrapers

The scrapers distinguish these shapes inside the article body: paragraphs
(and the other text blocks the junior.guru transforms inspect), figures
holding `<img>` elements and an optional `<figcaption>` (whose children may
be anchors), ARIA alert/status admonitions, `<script>`/`<style>` nodes, the
junior.guru `.newsletter-issue-date` node, and blocks produced by the
transforms themselves (`<blockquote>`, `<ul>`, `<pre>`).  The body is a list
of such blocks; images occur inside figures (the repository's articles wrap
every content image in a `<figure>`/`<picture>`, which is also the removal
unit `extractCoverImage` uses via `closest('figure') || closest('picture')`).
-/

/-- An `<img>` element: the attributes and properties the scrapers read. -/
structure Img where
  src : Option String
  alt : Option String
  naturalWidth : Nat
  naturalHeight : Nat
  deriving Repr, DecidableEq

/-- A child of a `<figcaption>`: plain text or an `<a>` element. -/
inductive CapPart where
  | txt (s : String)
  | anchor (text title href : String)
  deriving Repr, DecidableEq

/-- A top-level block of the article body. -/
inductive Block where
  | para (html : String)
  | figure (imgs : List Img) (caption : Option (List CapPart))
  | admonition (innerHtml : String)
  | blockquote (innerHtml : String)
  | scriptStyle
  | issueDate
  | list (items : List String)
  | preBlock (content : String)
  deriving Repr, DecidableEq

/-- All `<img>` elements of a block, in document order. -/
def Block.imgs : Block → List Img
  | .figure imgs _ => imgs
  | _ => []

/-- All `<img>` elements of a body (`querySelectorAll('img')` order). -/
def blocksImgs (bs : List Block) : List Img :=
  bs.flatMap Block.imgs

/-- Absolute form of an image's `src` the way the scrapers compute it:
`src ? toAbsoluteUrl(src) : ""`. -/
def imgAbs (base : JsUrl) (i : Img) : String :=
  match i.src with
  | none => ""
  | some s => toAbsoluteUrl base s

/-- `absolutizeAttribute(img, 'src')` on one image. -/
def sanitizeImg (base : JsUrl) (i : Img) : Img :=
  { i with src := i.src.map (sanitizeAttr base) }

/-- `sanitizeClone` on one block: `<script>`/`<style>` nodes are marked for
removal (mapped to `none`); `src` attributes are absolutized.  (`href`,
`poster` and `srcset` rewriting act on attributes this block model does not
carry; they are modelled separately at the attribute level for C5.) -/
def sanitizeBlock (base : JsUrl) : Block → Option Block
  | .scriptStyle => none
  | .figure imgs cap => some (.figure (imgs.map (sanitizeImg base)) cap)
  | b => some b

/-- Model of `sanitizeClone` over the body. -/
def sanitizeBlocks (base : JsUrl) (bs : List Block) : List Block :=
  bs.filterMap (sanitizeBlock base)

/-- `convertAdmonitionsToBlockquotes`: every `[role="alert"]`/`[role="status"]`
block is replaced by a `<blockquote>` with the same inner HTML. -/
def convertAdmonitionsB (bs : List Block) : List Block :=
  bs.map (fun b =>
    match b with
    | .admonition h => .blockquote h
    | b => b)

/-- `stripLinksFromFigureCaptions` on one caption child: an anchor becomes the
trimmed text node `anchor.textContent || anchor.title || anchor.href || ''`. -/
def stripCapPart : CapPart → CapPart
  | .txt s => .txt s
  | .anchor text title href => .txt (jsTrim (jsOrS text (jsOrS title href)))

/-- `stripLinksFromFigureCaptions` over the body. -/
def stripCaptionLinksB (bs : List Block) : List Block :=
  bs.map (fun b =>
    match b with
    | .figure imgs cap => .figure imgs (cap.map (·.map stripCapPart))
    | b => b)

/-- `textContent` of a caption. -/
def capText (cap : List CapPart) : String :=
  cap.foldl (fun acc p =>
    match p with
    | .txt s => acc ++ s
    | .anchor text _ _ => acc ++ text) ""

/-! ## Scraper error taxonomy

The scrapers throw plain `Error` objects distinguished only by their
user-facing message; the model names each throw site and keeps the exact
message text alongside. -/

/-- The throw sites of the two scrapers. -/
inductive ScrapeErr where
  | unsupportedPage
  | missingWrapper
  | missingTitle
  | emptyTitle
  | missingBody
  | missingIssue
  | noOgImage
  | ogNotAbsolute
  | noImages
  | coverMismatch
  | coverNoMatch
  | coverElemMissing
  | coverRemovalFailed
  deriving Repr, DecidableEq

/-- Message text of each throw site of `scrape-article`'s cover-extracting
variant (the honzajavorek.cz blog scraper embedded in the repository). -/
def blogErrMessage : ScrapeErr → String
  | .unsupportedPage => "POSSE currently supports only articles on https://honzajavorek.cz/blog/."
  | .missingWrapper => "POSSE: Unable to locate the blog article wrapper."
  | .missingTitle => "POSSE: Unable to locate the blog article title."
  | .emptyTitle => "POSSE: Blog article title is empty."
  | .missingBody => "POSSE: Unable to locate the blog article body."
  | .missingIssue => ""
  | .noOgImage => "POSSE: Unable to locate og:image metadata on the blog page."
  | .ogNotAbsolute => "POSSE: Unable to resolve og:image to an absolute URL."
  | .noImages => "POSSE: Unable to find any images in the article body."
  | .coverMismatch => "POSSE: First article image does not match og:image."
  | .coverNoMatch => "POSSE: The first large image in the article does not match og:image."
  | .coverElemMissing => "POSSE: Unable to resolve cover image elements for removal."
  | .coverRemovalFailed => "POSSE: Unable to determine how to remove the cover image from the article body."

/-- Message text of the junior.guru scraper's throw sites. -/
def jgErrMessage : ScrapeErr → String
  | .unsupportedPage => "POSSE currently supports articles on https://honzajavorek.cz/blog/ and https://junior.guru/news/."
  | .missingIssue => "POSSE: Unable to locate the newsletter issue container."
  | .missingTitle => "POSSE: Unable to locate the newsletter title."
  | .emptyTitle => "POSSE: Newsletter title is empty."
  | .noOgImage => "POSSE: Unable to locate og:image metadata on the newsletter page."
  | .ogNotAbsolute => "POSSE: Unable to resolve og:image to an absolute URL."
  | _ => ""

/-! ## CoverImage and ArticleRecord -/

/-- The CoverImage record both scrapers return. -/
structure CoverImage where
  url : String
  alt : String
  caption : String
  width : Option Nat
  height : Option Nat
  dataUrl : Option String
  mimeType : Option String
  fileName : Option String
  deriving Repr, DecidableEq

/-- The ArticleRecord a scraper returns (`bodyHtml` kept at block granularity;
serialisation to an HTML string is not modelled). -/
structure ArticleRecord where
  url : String
  title : String
  bodyHtml : List Block
  coverImage : Option CoverImage
  metaDescription : String
  deriving Repr, DecidableEq

/-- Response of the synchronous `XMLHttpRequest` in `fetchImageAsDataUrl`
when it succeeds with a 2xx status and a body. -/
structure FetchResp where
  contentType : String
  base64 : String
  deriving Repr, DecidableEq

/-- Environment oracle for image-byte acquisition: the canvas export (which
fails when the image taints the canvas) and the synchronous fetch. -/
structure ImgEnv where
  canvasB64 : Option String
  fetch : Option FetchResp
  deriving Repr, DecidableEq

/-- `fetchImageAsDataUrl`: on success the data URL is assembled as
`data:<content-type or application/octet-stream>;base64,<payload>`. -/
def fetchedDataUrl (env : ImgEnv) : Option String :=
  env.fetch.map (fun r =>
    "data:" ++ (jsOrS r.contentType "application/octet-stream") ++ ";base64," ++ r.base64)

/-- `readImageDataUrl`: canvas re-encode when the image has natural
dimensions and the draw/export succeeds (always a PNG data URL), else the
synchronous fetch fallback. -/
def readImageDataUrl (env : ImgEnv) (i : Img) : Option String :=
  if i.naturalWidth ≠ 0 ∧ i.naturalHeight ≠ 0 then
    match env.canvasB64 with
    | some b => some ("data:image/png;base64," ++ b)
    | none => fetchedDataUrl env
  else fetchedDataUrl env

/-- `inferMimeTypeFromDataUrl`: the regex `/^data:([^;,]+)[;,]/` — a
`data:` prefix, then a nonempty run free of `;`/`,` terminated by one. -/
def inferMimeTypeFromDataUrl : Option String → Option String
  | none => none
  | some d =>
    if jsStartsWith d "data:" then
      let rest := d.data.drop 5
      let mime := rest.takeWhile (fun c => c ≠ ';' ∧ c ≠ ',')
      let tail := rest.dropWhile (fun c => c ≠ ';' ∧ c ≠ ',')
      if mime.isEmpty then none
      else
        match tail with
        | [] => none
        | _ => some ⟨mime⟩
    else none

/-- `deriveFileNameFromUrl`: last nonempty path segment of the URL resolved
against the base, else null. -/
def deriveFileNameFromUrl (base : JsUrl) (url : String) : Option String :=
  if url = "" then none
  else
    match resolveUrl base url with
    | none => none
    | some r =>
      match parseAbsolute r with
      | none => none
      | some u =>
        (((splitChar '/' u.path.data).map (fun l => (⟨l⟩ : String))).filter (· ≠ "")).getLast?

/-! ## Cover extraction of the blog scraper (`extractCoverImage`) -/

/-- Index of the first list element satisfying a predicate (the shape of the
`for`/`continue` search loop in `extractCoverImage`). -/
def jsFindIdx (p : α → Bool) : List α → Option Nat
  | [] => none
  | x :: xs => if p x then some 0 else (jsFindIdx p xs).map (· + 1)

/-- The match predicate of `extractCoverImage`'s index search: skip images
with a falsy `src`, otherwise require the absolutized src to be nonempty and
equal to the og:image URL. -/
def coverSrcMatches (base : JsUrl) (coverUrl : String) (i : Img) : Bool :=
  match i.src with
  | none => false
  | some s =>
    if s = "" then false
    else
      let a := toAbsoluteUrl base s
      a ≠ "" && a == coverUrl

/-- Find the block containing the image at flat index `idx` of
`querySelectorAll('img')` order; returns that block (the removal target,
`closest('figure')`/`closest('picture')` of the image) and the body with it
removed. -/
def removeContainingBlock : List Block → Nat → Option (Block × List Block)
  | [], _ => none
  | b :: rest, idx =>
    if idx < b.imgs.length then some (b, rest)
    else (removeContainingBlock rest (idx - b.imgs.length)).map
      (fun p => (p.1, b :: p.2))

/-- `textContent.trim()` of the removal target's `<figcaption>`, if any. -/
def removalCaption : Block → String
  | .figure _ (some cap) => jsTrim (capText cap)
  | _ => ""

/-- Model of the blog scraper's `extractCoverImage(articleBody, articleClone,
coverImageUrlAbsolute)`.  `origImgs` are the images of the live (unsanitized)
body, `cloneBlocks` the sanitized/transformed clone; on success it returns
the CoverImage and the clone with the cover's containing figure removed. -/
def extractCoverImage (base : JsUrl) (origImgs : List Img) (cloneBlocks : List Block)
    (coverUrl : String) (env : ImgEnv) : Except ScrapeErr (CoverImage × List Block) :=
  let cloneImgs := blocksImgs cloneBlocks
  match origImgs with
  | [] => .error .noImages
  | o0 :: _ =>
    if cloneImgs.isEmpty then .error .noImages
    else
      let firstAbs := imgAbs base o0
      if firstAbs = "" ∨ firstAbs ≠ coverUrl then .error .coverMismatch
      else
        match jsFindIdx (coverSrcMatches base coverUrl) origImgs with
        | none => .error .coverNoMatch
        | some matchIndex =>
          match origImgs.get? matchIndex, cloneImgs.get? matchIndex with
          | some originalImage, some cloneImage =>
            match removeContainingBlock cloneBlocks matchIndex with
            | none => .error .coverRemovalFailed
            | some (target, rest) =>
              let altText :=
                match cloneImage.alt with
                | none => ""
                | some a => if a = "" then "" else jsTrim a
              let dataUrl := readImageDataUrl env originalImage
              .ok ({ url := coverUrl
                     alt := altText
                     caption := removalCaption target
                     width := if originalImage.naturalWidth = 0 then none
                              else some originalImage.naturalWidth
                     height := if originalImage.naturalHeight = 0 then none
                               else some originalImage.naturalHeight
                     dataUrl := dataUrl
                     mimeType := inferMimeTypeFromDataUrl dataUrl
                     fileName := deriveFileNameFromUrl base coverUrl }, rest)
          | _, _ => .error .coverElemMissing

/-! ## The honzajavorek.cz blog scraper -/

/-- The blog article's `<h1 class="title">`: text before/after the permalink
`<small>` child that `getArticleTitle` removes before reading text. -/
structure BlogTitle where
  beforeSmall : String
  small : Option String
  afterSmall : String
  deriving Repr, DecidableEq

/-- The source-page facts the blog scraper reads from the document. -/
structure BlogDoc where
  locationHref : String
  canonicalHref : Option String
  ogImageContent : Option String
  articlePresent : Bool
  title : Option BlogTitle
  bodyBlocks : Option (List Block)
  deriving Repr, DecidableEq

/-- `ensureBlogUrl` of the blog scrapers: throws the fixed unsupported-page
message unless the URL parses with the supported hostname and path prefix. -/
def ensureBlogUrlE (s : String) : Except ScrapeErr JsUrl :=
  if s = "" then .error .unsupportedPage
  else
    match parseAbsolute s with
    | none => .error .unsupportedPage
    | some u =>
      if u.host = "honzajavorek.cz" ∧ jsStartsWith u.path "/blog/" then .ok u
      else .error .unsupportedPage

/-- `getCanonicalUrl` of the blog scraper: a truthy canonical link is itself
validated (and its failure propagates); otherwise the current URL. -/
def getCanonicalUrlBlog (doc : BlogDoc) (currentUrl : JsUrl) : Except ScrapeErr String :=
  match doc.canonicalHref with
  | some h =>
    if h = "" then .ok currentUrl.href
    else (ensureBlogUrlE h).map (·.href)
  | none => .ok currentUrl.href

/-- Blog `getOgImageUrl`: requires truthy `og:image` content resolving to a
nonempty absolute URL. -/
def getOgImageUrlBlog (doc : BlogDoc) (base : JsUrl) : Except ScrapeErr String :=
  match doc.ogImageContent with
  | none => .error .noOgImage
  | some c =>
    if c = "" then .error .noOgImage
    else
      let a := toAbsoluteUrl base c
      if a = "" then .error .ogNotAbsolute else .ok a

/-- `getArticleTitle`: clone the heading, drop the `<small>` permalink, read
the trimmed text, reject empty titles. -/
def getArticleTitleE (doc : BlogDoc) : Except ScrapeErr String :=
  match doc.title with
  | none => .error .missingTitle
  | some t =>
    let text := jsTrim (t.beforeSmall ++ t.afterSmall)
    if text = "" then .error .emptyTitle else .ok text

/-- The clone after `sanitizeClone`, `convertAdmonitionsToBlockquotes` and
`stripLinksFromFigureCaptions`, in source order. -/
def blogSanitizedClone (base : JsUrl) (body : List Block) : List Block :=
  stripCaptionLinksB (convertAdmonitionsB (sanitizeBlocks base body))

/-- The cover stage of the blog scraper: the sanitized clone fed to
`extractCoverImage` together with the unsanitized body images. -/
def blogCoverStage (base : JsUrl) (body : List Block) (coverUrl : String)
    (env : ImgEnv) : Except ScrapeErr (CoverImage × List Block) :=
  extractCoverImage base (blocksImgs body) (blogSanitizedClone base body) coverUrl env

/-- The cover-extracting blog scraper, top to bottom: URL validation, article
wrapper and body lookup, og:image resolution, clone sanitization and
transforms, cover extraction, then the record (whose `url` and `title`
getters may still throw). -/
def blogScrape (doc : BlogDoc) (env : ImgEnv) : Except ScrapeErr ArticleRecord :=
  match ensureBlogUrlE doc.locationHref with
  | .error e => .error e
  | .ok currentUrl =>
    if !doc.articlePresent then .error .missingWrapper
    else
      match doc.bodyBlocks with
      | none => .error .missingBody
      | some body =>
        match getOgImageUrlBlog doc currentUrl with
        | .error e => .error e
        | .ok coverUrl =>
          match blogCoverStage currentUrl body coverUrl env with
          | .error e => .error e
          | .ok (cover, rest) =>
            match getCanonicalUrlBlog doc currentUrl with
            | .error e => .error e
            | .ok url =>
              match getArticleTitleE doc with
              | .error e => .error e
              | .ok title =>
                .ok { url := url, title := title, bodyHtml := rest
                      coverImage := some cover, metaDescription := "" }

/-! ## The junior.guru newsletter scraper -/

/-- The `.newsletter-issue` container: its date node's text and its body. -/
structure JgIssue where
  dateText : Option String
  blocks : List Block
  deriving Repr, DecidableEq

/-- The newsletter `<h1>` after `getArticleTitle` removed its `<a>` children:
only the remaining text matters. -/
structure JgHeading where
  textWithoutAnchors : String
  deriving Repr, DecidableEq

/-- The source-page facts the junior.guru scraper reads.  The three
description meta selectors and the two alt selectors are modelled as the
first hit of their respective chains. -/
structure JgDoc where
  locationHref : String
  canonicalHref : Option String
  metaDescriptionContent : Option String
  ogImageContent : Option String
  ogImageAltContent : Option String
  ogWidthContent : Option String
  ogHeightContent : Option String
  issue : Option JgIssue
  heading : Option JgHeading
  deriving Repr, DecidableEq

/-- `getMetaContent`: the trimmed `content` of a meta element, empty when the
element is absent or its trimmed content is empty. -/
def getMetaContent (o : Option String) : String :=
  match o with
  | none => ""
  | some c => jsTrim c

/-- `ensureSupportedUrl` of the junior.guru scraper. -/
def ensureSupportedUrlE (s : String) : Except ScrapeErr JsUrl :=
  if s = "" then .error .unsupportedPage
  else
    match parseAbsolute s with
    | none => .error .unsupportedPage
    | some u =>
      if u.host = "junior.guru" ∧ jsStartsWith u.path "/news/" then .ok u
      else .error .unsupportedPage

/-- junior.guru `getCanonicalUrl`. -/
def getCanonicalUrlJg (doc : JgDoc) (currentUrl : JsUrl) : Except ScrapeErr String :=
  match doc.canonicalHref with
  | some h =>
    if h = "" then .ok currentUrl.href
    else (ensureSupportedUrlE h).map (·.href)
  | none => .ok currentUrl.href

/-- junior.guru `getOgImageUrl` (content goes through `getMetaContent`, so it
is trimmed before the truthiness check). -/
def getOgImageUrlJg (doc : JgDoc) (base : JsUrl) : Except ScrapeErr String :=
  let c := getMetaContent doc.ogImageContent
  if c = "" then .error .noOgImage
  else
    let a := toAbsoluteUrl base c
    if a = "" then .error .ogNotAbsolute else .ok a

/-- `getNewsletterIssueDate`: trimmed date-node text, or empty. -/
def getNewsletterIssueDate (issue : JgIssue) : String :=
  match issue.dateText with
  | none => ""
  | some t => if t = "" then "" else jsTrim t

/-- junior.guru `getArticleTitle`. -/
def getJgTitleE (doc : JgDoc) : Except ScrapeErr String :=
  match doc.heading with
  | none => .error .missingTitle
  | some h =>
    let t := jsTrim h.textWithoutAnchors
    if t = "" then .error .emptyTitle else .ok t

/-- `Number.parseInt(value, 10)` on an already-trimmed value followed by the
positivity check of `getOgImageDimension`: leading decimal digits, `null`
when absent or the value is zero. -/
def parseIntPos (s : String) : Option Nat :=
  let ds := s.data.takeWhile Char.isDigit
  if ds.isEmpty then none
  else
    let n := ds.foldl (fun acc c => acc * 10 + (c.toNat - '0'.toNat)) 0
    if n = 0 then none else some n

/-- The bullet glyph constant of `convertBulletCharacterLists` (the source
holds a single fixed glyph; its identity is irrelevant to the transforms). -/
def bulletGlyph : Char := '•'

/-- The chart glyph constant of `convertChartBlocks`. -/
def chartGlyph : Char := '▦'

/-- `convertBulletCharacterLists` on one text block: if the inner HTML
contains the bullet glyph, split on it, trim the parts (the `&nbsp;` and
`<br>` stripping of the source is subsumed by trimming in this model), drop
empties, and replace the block by a `<ul>` when any part remains. -/
def convertBulletB : Block → Block
  | .para h =>
    if h.data.contains bulletGlyph then
      let parts := ((splitChar bulletGlyph h.data).map (fun l => jsTrim ⟨l⟩)).filter (· ≠ "")
      if parts.isEmpty then .para h else .list parts
    else .para h
  | b => b

/-- Boundary alternative of the date regex: `(\s|&nbsp;|<|$)`. -/
def dateBoundary : List Char → Bool
  | [] => true
  | c :: rest => jsWhitespace c ∨ c = '<' ∨ ['&','n','b','s','p',';'].isPrefixOf (c :: rest)

/-- Consume one or two decimal digits (`\d{1,2}`). -/
def dateDigits : List Char → Option (List Char)
  | [] => none
  | c :: rest =>
    if c.isDigit then
      match rest with
      | d :: rest2 => if d.isDigit then some rest2 else some rest
      | [] => some []
    else none

/-- Model of `datePattern` —
`/^\s*(<strong>\s*)?\d{1,2}\.\d{1,2}\.?(\s|&nbsp;|<|$)/i` — applied to the
trimmed inner HTML of a paragraph. -/
def isDatePara (h : String) : Bool :=
  let l := (jsTrim h).data.dropWhile jsWhitespace
  let l := if ['<','s','t','r','o','n','g','>'].isPrefixOf l
           then (l.drop 8).dropWhile jsWhitespace else l
  match dateDigits l with
  | none => false
  | some l1 =>
    match l1 with
    | '.' :: l2 =>
      match dateDigits l2 with
      | none => false
      | some l3 =>
        match l3 with
        | '.' :: l4 => dateBoundary l4 || dateBoundary l3
        | _ => dateBoundary l3
    | _ => false

/-- Flush a collected run of date paragraphs: runs of at least two become a
single `<ul>`, shorter runs stay paragraphs. -/
def flushDateSeq (seq : List String) : List Block :=
  if seq.length < 2 then seq.map .para else [.list seq]

/-- `convertDateParagraphLists`: group maximal runs of date-prefixed
paragraphs into list markup.  (The source walks only `<p>` elements, so an
interleaved non-paragraph block would not break a run there; at this model's
block granularity a run is broken by any non-matching block.) -/
def convertDateParagraphListsGo (seq : List String) : List Block → List Block
  | [] => flushDateSeq seq
  | .para h :: rest =>
    if isDatePara h then convertDateParagraphListsGo (seq ++ [h]) rest
    else flushDateSeq seq ++ .para h :: convertDateParagraphListsGo [] rest
  | b :: rest => flushDateSeq seq ++ b :: convertDateParagraphListsGo [] rest

/-- Entry point of `convertDateParagraphLists`. -/
def convertDateParagraphListsB (bs : List Block) : List Block :=
  convertDateParagraphListsGo [] bs

/-- Does the text contain two adjacent chart glyphs? -/
def containsDoubleGlyph : List Char → Bool
  | [] => false
  | [_] => false
  | a :: b :: rest => (a = chartGlyph ∧ b = chartGlyph) || containsDoubleGlyph (b :: rest)

/-- Does a line start with at least two chart glyphs (`^▦{2,}`)? -/
def lineIsChart (l : List Char) : Bool :=
  match l with
  | a :: b :: _ => a = chartGlyph ∧ b = chartGlyph
  | _ => false

/-- `convertChartBlocks` on one text block (newlines stand for the `<br>`
separators the source rewrites to `\n`; variation-selector stripping is not
modelled): blocks whose every nonempty trimmed line starts with a run of at
least two chart glyphs, with at least two such lines, become `<pre>` blocks. -/
def convertChartB : Block → Block
  | .para h =>
    if containsDoubleGlyph h.data then
      let lines := ((splitChar '\n' h.data).map (fun l => (jsTrim ⟨l⟩).data)).filter (·.length ≠ 0)
      if lines.length < 2 then .para h
      else if lines.all lineIsChart then
        .preBlock ⟨List.intercalate ['\n'] lines⟩
      else .para h
    else .para h
  | b => b

/-- The Czech subscription call-to-action markup inserted by
`injectSubscriptionBlockquote` (held as an opaque constant; its exact text
plays no role in any claim). -/
def subscriptionHtml : String :=
  "JUNIOR_GURU_SUBSCRIPTION_CTA"

/-- `injectSubscriptionBlockquote`: replace the first `<p>` of the body with
the fixed call-to-action blockquote. -/
def injectSubscriptionB : List Block → List Block
  | [] => []
  | .para _ :: rest => .blockquote subscriptionHtml :: rest
  | b :: rest => b :: injectSubscriptionB rest

/-- Footer markup of `appendOriginalLinkBlockquote` (Czech text held in
ASCII transliteration). -/
def footerHtml (url title : String) : String :=
  "Newsletter si muzes precist i primo na webu, v jeho puvodni podobe: <a href=\"" ++ url ++ "\">" ++ title ++ "</a>"

/-- `appendOriginalLinkBlockquote`: appended only when both the canonical URL
and the title are nonempty strings. -/
def appendOriginalLinkB (canonicalUrl title : String) (bs : List Block) : List Block :=
  if canonicalUrl = "" ∨ title = "" then bs
  else bs ++ [.blockquote (footerHtml canonicalUrl title)]

/-- `buildBodyHtml` of the junior.guru scraper, in source order: sanitize,
remove comment nodes (comments are not part of the block model), remove the
issue-date node, inject the subscription blockquote, convert bullet lists,
date lists and chart blocks, then append the original-link footer. -/
def jgBuildBodyHtml (base : JsUrl) (blocks : List Block) (canonicalUrl title : String) : List Block :=
  appendOriginalLinkB canonicalUrl title
    ((convertDateParagraphListsB
      ((injectSubscriptionB
        ((sanitizeBlocks base blocks).filter (· ≠ .issueDate))).map convertBulletB)).map convertChartB)

/-- `buildCoverImage` of the junior.guru scraper: the CoverImage is built
from the og:image URL, metadata and a fetch attempt alone — the article body
is never consulted. -/
def jgBuildCoverImage (doc : JgDoc) (env : ImgEnv) (base : JsUrl)
    (absoluteUrl caption title : String) : CoverImage :=
  let dataUrl := fetchedDataUrl env
  { url := absoluteUrl
    alt := jsOrS (getMetaContent doc.ogImageAltContent) (jsOrS title "")
    caption := jsOrS caption ""
    width := parseIntPos (getMetaContent doc.ogWidthContent)
    height := parseIntPos (getMetaContent doc.ogHeightContent)
    dataUrl := dataUrl
    mimeType := inferMimeTypeFromDataUrl dataUrl
    fileName := deriveFileNameFromUrl base absoluteUrl }

/-- The junior.guru scraper, top to bottom. -/
def jgScrape (doc : JgDoc) (env : ImgEnv) : Except ScrapeErr ArticleRecord :=
  match ensureSupportedUrlE doc.locationHref with
  | .error e => .error e
  | .ok currentUrl =>
    match doc.issue with
    | none => .error .missingIssue
    | some issue =>
      let issueDate := getNewsletterIssueDate issue
      match getJgTitleE doc with
      | .error e => .error e
      | .ok title =>
        match getCanonicalUrlJg doc currentUrl with
        | .error e => .error e
        | .ok canonicalUrl =>
          let metaDescription := getMetaContent doc.metaDescriptionContent
          match getOgImageUrlJg doc currentUrl with
          | .error e => .error e
          | .ok ogImageUrl =>
            .ok { url := canonicalUrl
                  title := title
                  bodyHtml := jgBuildBodyHtml currentUrl issue.blocks canonicalUrl title
                  coverImage := some (jgBuildCoverImage doc env currentUrl ogImageUrl issueDate title)
                  metaDescription := metaDescription }

/-! ## Attribute-level sanitization (C5)

`sanitizeClone` selects `[src]`, `[href]` and `[poster]` elements and runs
`absolutizeAttribute` on each present attribute.  The block model above only
carries image `src`; this element model carries all three attributes. -/

/-- An element as seen by `sanitizeClone`'s attribute passes. -/
structure SElem where
  src : Option String
  href : Option String
  poster : Option String
  deriving Repr, DecidableEq

/-- `absolutizeAttribute` over one element's three URL attributes (the
attribute selector only matches present attributes; `getAttribute` of a
present empty attribute is the falsy `""`, which `absolutizeAttribute`
returns unchanged — both are covered by `sanitizeAttr`). -/
def sanitizeSElem (base : JsUrl) (e : SElem) : SElem :=
  { src := e.src.map (sanitizeAttr base)
    href := e.href.map (sanitizeAttr base)
    poster := e.poster.map (sanitizeAttr base) }

/-- The attribute passes of `sanitizeClone` over all elements of the clone. -/
def sanitizeSElems (base : JsUrl) (es : List SElem) : List SElem :=
  es.map (sanitizeSElem base)

/-- The present URL-attribute values of an element. -/
def SElem.attrValues (e : SElem) : List String :=
  e.src.toList ++ e.href.toList ++ e.poster.toList

/-! ## Cover file construction and MIME normalization (C3) -/

/-- A `File` as far as the cover pipeline inspects it: name and MIME type
(the byte payload never influences control flow in the modelled code). -/
structure JsFile where
  name : String
  type : String
  deriving Repr, DecidableEq

/-- A `Blob`: only its MIME type is read. -/
structure JsBlob where
  type : String
  deriving Repr, DecidableEq

/-- Is a character in the base64 alphabet (incl. padding)? -/
def isBase64Char (c : Char) : Bool :=
  c.isAlpha ∨ c.isDigit ∨ c = '+' ∨ c = '/' ∨ c = '='

/-- Does `atob` accept the payload?  (Invalid alphabet or a length congruent
to 1 mod 4 throws.) -/
def atobOk (s : String) : Bool :=
  s.data.all isBase64Char && s.data.length % 4 ≠ 1

/-- `guessMimeTypeFromFileName`. -/
def guessMimeTypeFromFileName (fileName : String) : String :=
  let lower := jsToLower fileName
  if jsEndsWith lower ".png" then "image/png"
  else if jsEndsWith lower ".webp" then "image/webp"
  else if jsEndsWith lower ".gif" then "image/gif"
  else if jsEndsWith lower ".svg" then "image/svg+xml"
  else "image/jpeg"

/-- `dataUrlToBlob`: split on commas, read the MIME from the
`/data:([^;]+)(;base64)?/` header match, base64-decode the payload; any
failure yields null. -/
def dataUrlToBlob (dataUrl : String) : Option JsBlob :=
  match (splitChar ',' dataUrl.data).map (fun l => (⟨l⟩ : String)) with
  | [] => none
  | [_] => none
  | header :: restParts =>
    let base64 := String.intercalate "," restParts
    let mime :=
      if jsStartsWith header "data:" then
        let m := (header.data.drop 5).takeWhile (· ≠ ';')
        if m.isEmpty then "application/octet-stream" else (⟨m⟩ : String)
      else "application/octet-stream"
    if atobOk base64 then some { type := mime } else none

/-- `dataUrlToFile`: blob conversion plus the `mimeType || blob.type ||
guess` type choice. -/
def dataUrlToFile (dataUrl fileName : String) (mimeType : Option String) : Option JsFile :=
  match dataUrlToBlob dataUrl with
  | none => none
  | some blob =>
    some { name := fileName
           type := jsOrOS mimeType (jsOrS blob.type (guessMimeTypeFromFileName fileName)) }

/-- URL fallback of `deriveCoverFileName`. -/
def deriveCoverFileNameFromUrl (base : JsUrl) (cover : CoverImage) : String :=
  if cover.url = "" then "cover-image.jpg"
  else
    match deriveFileNameFromUrl base cover.url with
    | some seg => seg
    | none => "cover-image.jpg"

/-- `deriveCoverFileName`: explicit `fileName`, else last path segment of the
URL, else the fixed default. -/
def deriveCoverFileName (base : JsUrl) (cover : CoverImage) : String :=
  match cover.fileName with
  | some f => if f = "" then deriveCoverFileNameFromUrl base cover else f
  | none => deriveCoverFileNameFromUrl base cover

/-- Environment oracle for `buildCoverFile`'s network fallback: the blob of a
successful CORS fetch, or `none` for a failed/non-OK fetch. -/
structure CoverFetchEnv where
  fetchBlob : Option JsBlob
  deriving Repr, DecidableEq

/-- `buildCoverFile` of `linkedin-inject.js`: prefer the embedded data URL,
fall back to fetching the image URL; the file type comes from the data-URL
header / blob type / `mimeType` / filename guess chain.  No MIME
normalization happens here or anywhere later in this injector's flow: the
returned file is exactly what the delivery strategies receive. -/
def buildCoverFile (base : JsUrl) (cover : CoverImage) (env : CoverFetchEnv) : Option JsFile :=
  let fileName := deriveCoverFileName base cover
  let fromData :=
    match cover.dataUrl with
    | none => none
    | some d => dataUrlToFile d fileName cover.mimeType
  match fromData with
  | some f => some f
  | none =>
    if cover.url = "" then none
    else
      match env.fetchBlob with
      | none => none
      | some blob =>
        some { name := fileName
               type := jsOrS blob.type (jsOrOS cover.mimeType (guessMimeTypeFromFileName fileName)) }

/-- The file `stageCoverImage` of `linkedin-inject.js` hands to its delivery
strategies (file-input assignment, simulated drop, React drop handlers,
upload action): `buildCoverFile`'s output, unmodified. -/
def linkedinDeliveredFile (base : JsUrl) (cover : CoverImage) (env : CoverFetchEnv) : Option JsFile :=
  buildCoverFile base cover env

/-- The MIME types LinkedIn's cover uploader accepts
(`ensureCoverFileCompatibility`'s `allowedTypes`). -/
def acceptedCoverMimeTypes : List String := ["image/jpeg", "image/png"]

/-- `deriveFileNameBase`: strip query/fragment, take the last `/` segment,
drop the final extension, trim; fall back to `cover-image`. -/
def deriveFileNameBase (fileName : String) : String :=
  if fileName = "" then "cover-image"
  else
    let sanitized := fileName.data.takeWhile (fun c => c ≠ '?' ∧ c ≠ '#')
    let lastSegment := (splitChar '/' sanitized).getLastD []
    let base :=
      if lastSegment.contains '.' then
        ((lastSegment.reverse.dropWhile (· ≠ '.')).drop 1).reverse
      else lastSegment
    let trimmed := jsTrim ⟨base⟩
    if trimmed = "" then "cover-image" else trimmed

/-- `normalizeFileNameForType`. -/
def normalizeFileNameForType (fileName mimeType : String) : String :=
  deriveFileNameBase fileName ++ (if mimeType = "image/png" then ".png" else ".jpg")

/-- Environment oracle for `ensureCoverFileCompatibility`'s conversion
pipeline: the `FileReader` data URL of the original file and the canvas PNG
export of the decoded image (each `none` models the corresponding failure). -/
structure CompatEnv where
  readerDataUrl : Option String
  canvasPngDataUrl : Option String
  deriving Repr, DecidableEq

/-- The `sourceDataUrl` selection of `ensureCoverFileCompatibility`: prefer
the CoverImage's embedded data URL when it is a string starting with
`data:`, else fall back to reading the file through `FileReader`. -/
def sourceDataUrlOf (cover : Option CoverImage) (env : CompatEnv) : Option String :=
  match cover with
  | some c =>
    match c.dataUrl with
    | some d => if jsStartsWith d "data:" then some d else env.readerDataUrl
    | none => env.readerDataUrl
  | none => env.readerDataUrl

/-- `ensureCoverFileCompatibility` of the file-input cover flow (part_003):
accepted types are passed through (renamed for consistency); other types are
converted to PNG via FileReader + canvas, **falling back to the original,
unconverted file when any step of the conversion fails**. -/
def ensureCoverFileCompatibility (file : Option JsFile) (cover : Option CoverImage)
    (env : CompatEnv) : Option JsFile :=
  match file with
  | none => none
  | some f =>
    let lowerType := jsToLower f.type
    if acceptedCoverMimeTypes.contains lowerType then
      let normalizedName := normalizeFileNameForType f.name lowerType
      if normalizedName = f.name ∧ f.type = lowerType then some f
      else some { name := normalizedName, type := lowerType }
    else
      match sourceDataUrlOf cover env with
      | none => some f
      | some _ =>
        match env.canvasPngDataUrl with
        | none => some f
        | some png =>
          let pngFileName := normalizeFileNameForType f.name "image/png"
          match dataUrlToFile png pngFileName (some "image/png") with
          | some pf => some pf
          | none => some f

/-! ## URL validation against the supported source table (C4) -/

/-- Does a URL string parse and match the blog scraper's supported entry?
(The structural counterpart of `ensureBlogUrl` not throwing.) -/
def blogUrlOk (s : String) : Bool :=
  s ≠ "" &&
    match parseAbsolute s with
    | some u => u.host == "honzajavorek.cz" && jsStartsWith u.path "/blog/"
    | none => false

/-- Does a URL string parse and match the junior.guru scraper's supported
entry? -/
def jgUrlOk (s : String) : Bool :=
  s ≠ "" &&
    match parseAbsolute s with
    | some u => u.host == "junior.guru" && jsStartsWith u.path "/news/"
    | none => false

/-- One entry of `background.js`'s `SOURCES` table. -/
structure SourceCfg where
  id : String
  hostname : String
  pathPre : String
  scrapeScript : String
  openDiscord : Bool
  deriving Repr, DecidableEq

/-- The supported source table of `background.js`. -/
def SOURCES : List SourceCfg :=
  [ { id := "personal-blog", hostname := "honzajavorek.cz", pathPre := "/blog/"
      scrapeScript := "scrape-article.js", openDiscord := true },
    { id := "junior-guru-news", hostname := "junior.guru", pathPre := "/news/"
      scrapeScript := "scrape-junior-guru.js", openDiscord := false } ]

/-- The fixed unsupported-page message of `background.js`. -/
def bgUnsupportedMessage : String :=
  "POSSE currently supports articles on https://honzajavorek.cz/blog/ and https://junior.guru/news/."

/-- The error `resolveSourceDetails` throws: a fixed name and message. -/
structure BgErr where
  name : String
  message : String
  deriving Repr, DecidableEq

/-- Does a parsed URL match a table entry
(`hostname === source.hostname && pathname.startsWith(source.pathPrefix)`)? -/
def matchesSource (u : JsUrl) (cfg : SourceCfg) : Bool :=
  u.host == cfg.hostname && jsStartsWith u.path cfg.pathPre

/-- `resolveSourceDetails` of `background.js`: first matching table entry
wins; every failure throws the fixed `POSSEUnsupportedSource` error. -/
def resolveSourceDetails (urlString : Option String) : Except BgErr (JsUrl × SourceCfg) :=
  let err : BgErr := { name := "POSSEUnsupportedSource", message := bgUnsupportedMessage }
  match urlString with
  | none => .error err
  | some s =>
    if s = "" then .error err
    else
      match parseAbsolute s with
      | none => .error err
      | some parsed =>
        match SOURCES.find? (matchesSource parsed) with
        | some config => .ok (parsed, config)
        | none => .error err

/-- Does any entry of the supported source table match? -/
def anySourceMatches (s : String) : Bool :=
  s ≠ "" &&
    match parseAbsolute s with
    | some u => SOURCES.any (matchesSource u)
    | none => false

/-! ## Element locator (`waitForElement`, C6)

The locator races an initial synchronous check, a fixed-interval poll and a
mutation observer.  A run is modelled over the sequence of checks that
actually execute: `tick q` is one interval callback (which first counts the
attempt, resolves null on budget exhaustion, and otherwise queries), and
`check q` is an observer callback or the post-registration re-check, where
`q` is the `querySelector` answer (the first matching element currently in
the document) at that instant. -/

/-- One scheduled check of a `waitForElement` run. -/
inductive WQuery (E : Type) where
  | tick (q : Option E)
  | check (q : Option E)
  deriving Repr, DecidableEq

/-- Outcome of a run: the promise resolved with a value, rejected, or is
still pending after the modelled events ran out. -/
inductive WaitOutcome (E : Type) where
  | resolved (v : Option E)
  | rejected
  | pending
  deriving Repr, DecidableEq

/-- Syntactic validity of a CSS selector, modelling the browser's selector
parser (`querySelector` throws `SyntaxError` on invalid selectors such as
`"!!"`).  The model accepts the character repertoire the repository's fixed
selectors use. -/
def cssSelectorOk (s : String) : Bool :=
  s ≠ "" && s.data.all (fun c =>
    c.isAlpha ∨ c.isDigit ∨ c = '#' ∨ c = '.' ∨ c = '-' ∨ c = '_' ∨
    c = '[' ∨ c = ']' ∨ c = '=' ∨ c = '"' ∨ c = ' ' ∨ c = ',' ∨ c = ':' ∨ c = '*')

/-- The polling/observing loop of `waitForElement` after a null initial
check: each tick increments `attempts`, resolves null once
`attempts ≥ maxAttempts`, and otherwise re-queries; observer checks re-query
without spending an attempt.  Returns the outcome and the number of ticks
consumed. -/
def waitLoop (E : Type) (maxAttempts : Nat) : Nat → List (WQuery E) → WaitOutcome E × Nat
  | _, [] => (.pending, 0)
  | attempts, .tick q :: rest =>
    let a := attempts + 1
    if maxAttempts ≤ a then (.resolved none, 1)
    else
      match q with
      | some e => (.resolved (some e), 1)
      | none =>
        let r := waitLoop E maxAttempts a rest
        (r.1, r.2 + 1)
  | attempts, .check q :: rest =>
    match q with
    | some e => (.resolved (some e), 0)
    | none => waitLoop E maxAttempts attempts rest

/-- A `waitForElement(selector, root, maxAttempts, delayMs)` run: falsy
selector resolves null immediately; an invalid selector makes the initial
`querySelector` throw inside the `Promise` executor, rejecting the promise;
a found initial match resolves immediately; otherwise the loop runs. -/
def waitForElementRun (E : Type) (selector : String) (maxAttempts : Nat)
    (initialQ : Option E) (events : List (WQuery E)) : WaitOutcome E × Nat :=
  if selector = "" then (.resolved none, 0)
  else if !cssSelectorOk selector then (.rejected, 0)
  else
    match initialQ with
    | some e => (.resolved (some e), 0)
    | none => waitLoop E maxAttempts 0 events

/-! ## Background coordinator (`background.js`, C7) -/

/-- The two task kinds the coordinator holds. -/
inductive TaskType where
  | discord
  | linkedin
  deriving Repr, DecidableEq

/-- The metadata payload stored with a pending task (fields the message
handlers read back out). -/
structure TaskPayload where
  sourceUrl : String
  sourceTitle : String
  bodyHtml : String
  deriving Repr, DecidableEq

/-- One pending task of the coordinator's `pendingTasks` map. -/
structure PendingTask where
  ttype : TaskType
  payload : TaskPayload
  deriving Repr, DecidableEq

/-- The coordinator's `pendingTasks` map, keyed by tab id (first binding
wins on lookup; `set` replaces, `delete` erases). -/
abbrev CoordState := List (Nat × PendingTask)

/-- `Map.get`. -/
def lookupTask (s : CoordState) (tab : Nat) : Option PendingTask :=
  match s.find? (fun p => p.1 = tab) with
  | some p => some p.2
  | none => none

/-- `Map.set`. -/
def setTask (s : CoordState) (tab : Nat) (t : PendingTask) : CoordState :=
  (tab, t) :: s.filter (fun p => p.1 ≠ tab)

/-- `Map.delete`. -/
def deleteTask (s : CoordState) (tab : Nat) : CoordState :=
  s.filter (fun p => p.1 ≠ tab)

/-- The message types the runtime listener distinguishes. -/
inductive MsgType where
  | requestUrl
  | requestLinkedInMetadata
  | other
  deriving Repr, DecidableEq

/-- An event the coordinator's listeners process: a `pendingTasks.set` from
the browser-action flow, a runtime message (with the sender's tab id, if
any), or a tab removal. -/
inductive CoordEvent where
  | createTask (tab : Nat) (task : PendingTask)
  | request (msg : MsgType) (senderTab : Option Nat)
  | tabRemoved (tab : Nat)
  deriving Repr, DecidableEq

/-- What the runtime listener answers: nothing (`undefined`), a
`{success:false}`, or a success response carrying the task's payload to the
requesting tab. -/
inductive CoordReply where
  | noReply
  | failure
  | deliveredDiscord (tab : Nat) (postUrl : String)
  | deliveredLinkedIn (tab : Nat) (title sourceUrl bodyHtml : String)
  deriving Repr, DecidableEq

/-- The tab a success response was delivered to, if any. -/
def deliveredTab : CoordReply → Option Nat
  | .deliveredDiscord tab _ => some tab
  | .deliveredLinkedIn tab _ _ _ => some tab
  | _ => none

/-- One step of the coordinator: the `runtime.onMessage` and `tabs.onRemoved`
listeners of `background.js`, plus task creation. -/
def coordStep (s : CoordState) : CoordEvent → CoordState × CoordReply
  | .createTask tab task => (setTask s tab task, .noReply)
  | .request .requestUrl (some tab) =>
    match lookupTask s tab with
    | some details =>
      if details.ttype = .discord then
        (deleteTask s tab, .deliveredDiscord tab details.payload.sourceUrl)
      else (s, .failure)
    | none => (s, .failure)
  | .request .requestLinkedInMetadata (some tab) =>
    match lookupTask s tab with
    | some details =>
      if details.ttype = .linkedin then
        (deleteTask s tab,
         .deliveredLinkedIn tab details.payload.sourceTitle details.payload.sourceUrl
           details.payload.bodyHtml)
      else (s, .failure)
    | none => (s, .failure)
  | .request _ _ => (s, .noReply)
  | .tabRemoved tab => (deleteTask s tab, .noReply)

/-- The replies produced by running the coordinator over an event list. -/
def coordReplies (s : CoordState) : List CoordEvent → List CoordReply
  | [] => []
  | e :: rest =>
    let r := coordStep s e
    r.2 :: coordReplies r.1 rest

/-- Is an event a task creation for tab `t`? -/
def isCreateFor (t : Nat) : CoordEvent → Bool
  | .createTask tab _ => tab = t
  | _ => false

/-! ## Body maintenance watcher (`maintainBodyContent`, C8) -/

/-- What `tryRestoreBody`'s `querySelector` sees: the body editor's presence
and whether `hasBodyContent` holds for it. -/
structure FieldView where
  hasContent : Bool
  deriving Repr, DecidableEq

/-- A re-stage action the watcher performs (`stageBody(field, markup,
textFallback, allowPaste)`). -/
structure Restage where
  allowPaste : Bool
  deriving Repr, DecidableEq

/-- An event during the watcher's lifetime: a captured `input` event (with
whether its target is inside the body editor), an observer mutation batch, a
firing of one of the three kick timeouts scheduled at start (150/600/1400
ms), or the duration-budget timeout.  `field` is the editor lookup result at
that instant. -/
inductive WatchEvent where
  | userInput (inEditor : Bool)
  | mutation (field : Option FieldView)
  | kick (field : Option FieldView)
  | budget
  deriving Repr, DecidableEq

/-- `tryRestoreBody`: nothing when the field is missing or already has
content; otherwise a direct-replacement re-stage with paste emulation
disabled. -/
def tryRestoreBody (field : Option FieldView) : Option Restage :=
  match field with
  | none => none
  | some f => if f.hasContent then none else some { allowPaste := false }

/-- One step of the watcher.  The `active` latch is cleared by an in-editor
input event and by the budget timeout; the observer callback consults it,
**the kick timeouts do not**. -/
def watchStep (active : Bool) : WatchEvent → Bool × Option Restage
  | .userInput inEditor => (if inEditor then false else active, none)
  | .mutation field => if active then (active, tryRestoreBody field) else (active, none)
  | .kick field => (active, tryRestoreBody field)
  | .budget => (false, none)

/-- Run the watcher over an event list, collecting the re-stage it performs
at each event (if any) and the final latch state. -/
def watchRun (active : Bool) : List WatchEvent → Bool × List (Option Restage)
  | [] => (active, [])
  | e :: rest =>
    let r := watchStep active e
    let rec' := watchRun r.1 rest
    (rec'.1, r.2 :: rec'.2)

/-! ## Title stager (`stageTitle`, C9) -/

/-- Events `stageTitle` dispatches on the title field. -/
inductive TitleEvt where
  | focusEvt
  | inputPlain
  | inputTyped (data : String)
  | changeEvt
  deriving Repr, DecidableEq

/-- The title `<textarea>` as the stager touches it. -/
structure TitleField where
  value : String
  dispatched : List TitleEvt
  deriving Repr, DecidableEq

/-- JavaScript runtime errors the model distinguishes. -/
inductive JsErr where
  | typeError
  deriving Repr, DecidableEq

/-- `typeof title === "string" ? title.trim() : ""`. -/
def finalTitleOf (title : Option String) : String :=
  match title with
  | none => ""
  | some s => jsTrim s

/-- Model of `stageTitle(element, title)`: there is no null guard, so a null
element makes `focusTitle`'s `element.focus(...)` throw a `TypeError`; on a
real element the flow is focus, native value write, a plain bubbling `input`
event, a typed `InputEvent` where the constructor is supported (the
`try`/`catch` swallows unsupported constructors), then `change`. -/
def stageTitleModel (el : Option TitleField) (title : Option String)
    (supportsInputEvent : Bool) : Except JsErr TitleField :=
  let finalTitle := finalTitleOf title
  match el with
  | none => .error .typeError
  | some f =>
    let f1 : TitleField := { f with dispatched := f.dispatched ++ [.focusEvt] }
    let f2 : TitleField := { f1 with value := finalTitle }
    let f3 : TitleField :=
      { f2 with dispatched :=
          f2.dispatched ++ [.inputPlain] ++
          (if supportsInputEvent then [.inputTyped finalTitle] else []) ++ [.changeEvt] }
    .ok f3

/-! ## Discord composer stager (`stageMessage`, C10) -/

/-- Selection state of the model (only the facts the claim inspects). -/
inductive SelState where
  | collapsedAtStart
  | coversAll
  | unknown
  deriving Repr, DecidableEq

/-- The Discord message composer. -/
structure Composer where
  content : String
  selection : SelState
  focused : Bool
  inputDispatched : Bool
  deriving Repr, DecidableEq

/-- Environment switches of the staging flow: `window.getSelection()`
availability and the two `document.execCommand` outcomes. -/
structure ComposerEnv where
  selectionAvailable : Bool
  insertTextOk : Bool
  insertHtmlOk : Bool
  deriving Repr, DecidableEq

/-- `replaceComposerContent`: select the composer's contents and replace them
via `insertText`, falling back to `insertHTML`; reports whether an
execCommand path succeeded. -/
def replaceComposerContent (c : Composer) (message : String) (env : ComposerEnv) :
    Composer × Bool :=
  if !env.selectionAvailable then (c, false)
  else
    let c1 : Composer := { c with selection := .coversAll }
    if env.insertTextOk then ({ c1 with content := message }, true)
    else if env.insertHtmlOk then ({ c1 with content := message }, true)
    else (c1, false)

/-- `collapseSelectionToStart`: no-op without a selection object, otherwise
collapse to the start of the composer contents. -/
def collapseSelectionToStart (c : Composer) (env : ComposerEnv) : Composer :=
  if env.selectionAvailable then { c with selection := .collapsedAtStart } else c

/-- `stageMessage(element, message)`: focus; prefix a single space unless the
message already starts with one; replace the composer content (falling back
to a raw `textContent` write); collapse the selection to the start; dispatch
the `input` event; collapse again on the next animation frame. -/
def stageMessage (c : Composer) (message : String) (env : ComposerEnv) : Composer :=
  let c0 : Composer := { c with focused := true }
  let staged := if jsStartsWith message " " then message else " " ++ message
  let r := replaceComposerContent c0 staged env
  let c1 := if r.2 then r.1 else { r.1 with content := staged }
  let c2 := collapseSelectionToStart c1 env
  let c3 : Composer := { c2 with inputDispatched := true }
  collapseSelectionToStart c3 env

/-! ## Concrete inputs used to exercise the models -/

/-- A parsed supported blog URL used as resolution base in examples. -/
def exBlogBase : JsUrl :=
  { scheme := "https", host := "honzajavorek.cz", path := "/blog/x/"
    href := "https://honzajavorek.cz/blog/x/" }

/-- An environment in which neither canvas export nor fetch succeeds. -/
def exImgEnvNone : ImgEnv := { canvasB64 := none, fetch := none }

/-- A body image pointing at the page's og:image. -/
def exCoverImg : Img :=
  { src := some "https://honzajavorek.cz/img/c.png", alt := some "Alt"
    naturalWidth := 0, naturalHeight := 0 }

/-- A body image pointing elsewhere. -/
def exOtherImg : Img :=
  { src := some "https://honzajavorek.cz/img/o.png", alt := none
    naturalWidth := 0, naturalHeight := 0 }

/-- A supported blog page whose body references the og:image cover twice,
each wrapped in its own figure. -/
def exBlogDocDup : BlogDoc :=
  { locationHref := "https://honzajavorek.cz/blog/x/"
    canonicalHref := none
    ogImageContent := some "https://honzajavorek.cz/img/c.png"
    articlePresent := true
    title := some { beforeSmall := "Hello ", small := some "#", afterSmall := "" }
    bodyBlocks := some [.figure [exCoverImg] none, .para "World", .figure [exCoverImg] none] }

/-- A supported blog page whose first body image is not the og:image. -/
def exBlogDocMismatch : BlogDoc :=
  { exBlogDocDup with bodyBlocks := some [.figure [exOtherImg] none] }

/-- A supported junior.guru newsletter page whose first (and only) body image
is not the og:image. -/
def exJgDocMismatch : JgDoc :=
  { locationHref := "https://junior.guru/news/42/"
    canonicalHref := none
    metaDescriptionContent := none
    ogImageContent := some "https://junior.guru/img/cover.jpg"
    ogImageAltContent := none
    ogWidthContent := some "1200"
    ogHeightContent := some "630"
    issue := some { dateText := some " 1. 1. 2024 "
                    blocks := [.para "intro",
                               .figure [{ src := some "other.jpg", alt := none
                                          naturalWidth := 0, naturalHeight := 0 }] none] }
    heading := some { textWithoutAnchors := " Newsletter 42 " } }

/-- The parsed current URL of `exJgDocMismatch`. -/
def exJgBase : JsUrl :=
  { scheme := "https", host := "junior.guru", path := "/news/42/"
    href := "https://junior.guru/news/42/" }

/-- Decidable equality for `Except`, used to evaluate scraper results on
concrete inputs. -/
instance {e a : Type} [DecidableEq e] [DecidableEq a] : DecidableEq (Except e a) :=
  fun x y =>
    match x, y with
    | .error e1, .error e2 =>
      if h : e1 = e2 then .isTrue (by rw [h])
      else .isFalse (by intro hh; cases hh; exact h rfl)
    | .ok a1, .ok a2 =>
      if h : a1 = a2 then .isTrue (by rw [h])
      else .isFalse (by intro hh; cases hh; exact h rfl)
    | .error _, .ok _ => .isFalse (by intro hh; cases hh)
    | .ok _, .error _ => .isFalse (by intro hh; cases hh)

/-- A blog body carrying the cover exactly once. -/
def exC2Body : List Block := [Block.figure [exCoverImg] none, Block.para "World"]

/-- The CoverImage the cover stage produces on `exC2Body` under
`exImgEnvNone`. -/
def exC2Cov : CoverImage :=
  { url := "https://honzajavorek.cz/img/c.png", alt := "Alt", caption := ""
    width := none, height := none, dataUrl := none, mimeType := none
    fileName := some "c.png" }

/-- A concrete pending task for coordinator runs. -/
def exCoordTask : PendingTask :=
  { ttype := .discord
    payload := { sourceUrl := "https://honzajavorek.cz/blog/x/"
                 sourceTitle := "Hello", bodyHtml := "<p>World</p>" } }

/-- A coordinator event sequence with two creations and two delivering
requests for the same tab. -/
def exCoordEvents : List CoordEvent :=
  [.createTask 1 exCoordTask, .request .requestUrl (some 1),
   .createTask 1 exCoordTask, .request .requestUrl (some 1)]

/-- A CoverImage whose payload is a WebP image — a MIME type outside
LinkedIn's accepted set. -/
def exWebpCover : CoverImage :=
  { url := "https://honzajavorek.cz/img/x.webp", alt := "", caption := ""
    width := none, height := none
    dataUrl := some "data:image/webp;base64,AAAA"
    mimeType := some "image/webp", fileName := some "x.webp" }

/-! # Theorems -/

/-! ## C9 — title staging -/

/-- C9 (counterexample): `stageTitle` is *not* a defensive no-op on a null
title field and does not "never throw": called with a null element it throws
a `TypeError` (`focusTitle` dereferences the element unconditionally). -/
theorem c9_counterexample :
    stageTitleModel none (some "Title") true = .error .typeError := by
  rfl

/-- C9 (amended): `stageTitle` has no null guard — a null element makes it
throw a `TypeError`; on a non-null element it never throws, its only side
effects are writing the trimmed title into the field's value and dispatching
focus, a bubbling `input` event (plus a typed `InputEvent` where the
constructor is supported), then `change`, and it returns no other value. -/
theorem c9_title_staging (f : TitleField) (t : Option String) (sup : Bool) :
    stageTitleModel none t sup = .error .typeError ∧
    stageTitleModel (some f) t sup =
      .ok { value := finalTitleOf t
            dispatched := f.dispatched ++ [.focusEvt, .inputPlain] ++
              (if sup then [.inputTyped (finalTitleOf t)] else []) ++ [.changeEvt] } := by
  constructor
  · rfl
  · simp [stageTitleModel]

/-! ## C10 — Discord composer staging -/

/-- The staged composer content always ends up being the (possibly
space-prefixed) message, on every execCommand/selection path. -/
theorem stageMessage_content (c : Composer) (message : String) (env : ComposerEnv) :
    (stageMessage c message env).content =
      (if jsStartsWith message " " then message else " " ++ message) := by
  cases hsa : env.selectionAvailable <;> cases hit : env.insertTextOk <;>
    cases hih : env.insertHtmlOk <;> cases hws : jsStartsWith message " " <;>
    simp [stageMessage, replaceComposerContent, collapseSelectionToStart, hsa, hit, hih, hws]

/-- A single space prepended to a string that does not start with a space
yields exactly one leading space. -/
theorem leadingSpaces_space_append (m : String) (h : jsStartsWith m " " = false) :
    leadingSpaces (" " ++ m) = 1 := by
  have hdata : (" " ++ m).data = ' ' :: m.data := by
    cases m with
    | mk l => rfl
  simp only [leadingSpaces, hdata]
  cases hm : m.data with
  | nil => simp [List.takeWhile]
  | cons c rest =>
    have hc : c ≠ ' ' := by
      intro hceq
      rw [jsStartsWith, hm, hceq] at h
      simp [List.isPrefixOf] at h
    simp [List.takeWhile, hc]

/-- C10: for every non-empty post URL, the staged composer content is the URL
with a single leading space prepended exactly when the URL does not already
start with one, and after staging the selection is collapsed to the start of
the composer content. -/
theorem c10_stage_message (c : Composer) (message : String) (env : ComposerEnv)
    (_hmsg : message ≠ "") (hsel : env.selectionAvailable = true) :
    (jsStartsWith message " " = false →
      (stageMessage c message env).content = " " ++ message ∧
      leadingSpaces (stageMessage c message env).content = 1) ∧
    (jsStartsWith message " " = true →
      (stageMessage c message env).content = message) ∧
    (stageMessage c message env).selection = .collapsedAtStart := by
  have hc := stageMessage_content c message env
  refine ⟨fun hws => ?_, fun hws => ?_, ?_⟩
  · rw [hws] at hc
    simp only [Bool.false_eq_true, if_false] at hc
    exact ⟨hc, by rw [hc]; exact leadingSpaces_space_append message hws⟩
  · rw [hws] at hc
    simpa using hc
  · cases hit : env.insertTextOk <;> cases hih : env.insertHtmlOk <;>
      cases hws : jsStartsWith message " " <;>
      simp [stageMessage, replaceComposerContent, collapseSelectionToStart, hsel, hit, hih, hws]

/-- C10 (witness): the theorem applied to a concrete composer, URL and
environment. -/
theorem c10_witness :
    ("https://honzajavorek.cz/blog/x/" ≠ "" ∧
      ComposerEnv.selectionAvailable
        { selectionAvailable := true, insertTextOk := true, insertHtmlOk := true } = true) ∧
    (jsStartsWith "https://honzajavorek.cz/blog/x/" " " = false →
      (stageMessage { content := "", selection := .unknown, focused := false, inputDispatched := false }
        "https://honzajavorek.cz/blog/x/"
        { selectionAvailable := true, insertTextOk := true, insertHtmlOk := true }).content =
        " " ++ "https://honzajavorek.cz/blog/x/" ∧
      leadingSpaces (stageMessage { content := "", selection := .unknown, focused := false, inputDispatched := false }
        "https://honzajavorek.cz/blog/x/"
        { selectionAvailable := true, insertTextOk := true, insertHtmlOk := true }).content = 1) ∧
    (jsStartsWith "https://honzajavorek.cz/blog/x/" " " = true →
      (stageMessage { content := "", selection := .unknown, focused := false, inputDispatched := false }
        "https://honzajavorek.cz/blog/x/"
        { selectionAvailable := true, insertTextOk := true, insertHtmlOk := true }).content =
        "https://honzajavorek.cz/blog/x/") ∧
    (stageMessage { content := "", selection := .unknown, focused := false, inputDispatched := false }
      "https://honzajavorek.cz/blog/x/"
      { selectionAvailable := true, insertTextOk := true, insertHtmlOk := true }).selection =
      .collapsedAtStart :=
  ⟨⟨by decide, by decide⟩, c10_stage_message _ _ _ (by decide) (by decide)⟩

/-! ## C8 — body maintenance watcher -/

/-- C8 (counterexample): the watcher does **not** stop permanently on user
input.  After a user `input` event inside the editor clears the latch (final
latch state `false`), a pre-scheduled kick timeout (150/600/1400 ms) still
fires `tryRestoreBody` without consulting the latch and re-stages an empty
body: the second event emits a re-stage even though the first event was the
stop signal. -/
theorem c8_counterexample :
    watchRun true [.userInput true, .kick (some { hasContent := false })] =
      (false, [none, some { allowPaste := false }]) := by
  rfl

/-- Once the latch is cleared it stays cleared for the rest of the run. -/
theorem watchRun_inactive_absorbing (evs : List WatchEvent) :
    (watchRun false evs).1 = false := by
  induction evs with
  | nil => rfl
  | cons e rest ih =>
    cases e with
    | userInput inEditor => cases inEditor <;> simpa [watchRun, watchStep] using ih
    | mutation f => simpa [watchRun, watchStep] using ih
    | kick f => simpa [watchRun, watchStep] using ih
    | budget => simpa [watchRun, watchStep] using ih

/-- Every re-stage the watcher ever emits has paste emulation disabled. -/
theorem watchRun_restage_paste_free (a : Bool) (evs : List WatchEvent) (r : Restage)
    (h : some r ∈ (watchRun a evs).2) : r.allowPaste = false := by
  induction evs generalizing a with
  | nil => simp [watchRun] at h
  | cons e rest ih =>
    simp only [watchRun, List.mem_cons] at h
    rcases h with h | h
    · cases e with
      | userInput inEditor => simp [watchStep] at h
      | mutation f =>
        cases a <;> cases f with
        | none => simp_all [watchStep, tryRestoreBody]
        | some fv =>
          cases hfc : fv.hasContent <;> simp_all [watchStep, tryRestoreBody]
      | kick f =>
        cases f with
        | none => simp [watchStep, tryRestoreBody] at h
        | some fv =>
          cases hfc : fv.hasContent <;> simp_all [watchStep, tryRestoreBody]
      | budget => simp [watchStep] at h
    · exact ih _ h

/-- C8 (amended): the latch is one-way — once cleared (by an in-editor user
input event or the duration budget) it never becomes active again, and the
mutation observer emits no re-stage while the latch is cleared; every
re-stage the watcher ever performs uses direct replacement with paste
emulation disabled; the budget timeout clears the latch.  However, the three
kick timeouts scheduled at start do not consult the latch, so (as the
counterexample shows) a re-stage can still happen after the stop signal. -/
theorem c8_watcher_latch (a : Bool) (evs : List WatchEvent) (f : Option FieldView)
    (r : Restage) (hr : some r ∈ (watchRun a evs).2) :
    (watchRun false evs).1 = false ∧
    (watchStep false (.mutation f)).2 = none ∧
    (watchStep a .budget).1 = false ∧
    r.allowPaste = false := by
  refine ⟨watchRun_inactive_absorbing evs, by simp [watchStep], by simp [watchStep], ?_⟩
  exact watchRun_restage_paste_free a evs r hr

/-- C8 (witness): the amended theorem applied to a concrete run in which a
mutation re-stage happens while the watcher is active. -/
theorem c8_witness :
    some { allowPaste := false } ∈
      (watchRun true [.mutation (some { hasContent := false })]).2 ∧
    ((watchRun false [.mutation (some { hasContent := false })]).1 = false ∧
      (watchStep false (.mutation (some { hasContent := false }))).2 = none ∧
      (watchStep true .budget).1 = false ∧
      ({ allowPaste := false } : Restage).allowPaste = false) :=
  ⟨by decide, c8_watcher_latch true _ (some { hasContent := false }) _ (by decide)⟩

/-! ## C3 — cover MIME normalization -/

/-- C3 (counterexample): in the live `linkedin-inject.js` cover flow there is
no normalization step at all — a CoverImage materializing into a WebP file is
handed to the delivery strategies with MIME type `image/webp`, which is
outside the accepted set. -/
theorem c3_counterexample :
    linkedinDeliveredFile exBlogBase exWebpCover { fetchBlob := none } =
      some { name := "x.webp", type := "image/webp" } ∧
    acceptedCoverMimeTypes.contains "image/webp" = false := by
  constructor
  · rfl
  · decide

/-- `dataUrlToFile` with an explicit nonempty MIME argument produces a file
of exactly that type. -/
theorem dataUrlToFile_type (d n m : String) (pf : JsFile) (hm : m ≠ "")
    (h : dataUrlToFile d n (some m) = some pf) : pf.type = m := by
  unfold dataUrlToFile at h
  cases hb : dataUrlToBlob d with
  | none => rw [hb] at h; exact absurd h (by simp)
  | some blob =>
    rw [hb] at h
    have := Option.some.inj h
    rw [← this]
    simp [jsOrOS, jsOrS, hm]

/-- C3 (amended): cover-file MIME normalization exists only in the part_003
file-input flow and is best-effort there, not mandatory.  Accepted types pass
through with an accepted type; an unaccepted type is converted to
`image/png` when the FileReader/canvas pipeline succeeds; but when no source
data URL can be obtained the **original file with its unaccepted MIME type**
is handed on to delivery.  (The live `linkedin-inject.js` flow, per the
counterexample, performs no normalization at all.) -/
theorem c3_normalization_best_effort (f pf : JsFile) (cover : Option CoverImage)
    (env : CompatEnv) (du png : String) :
    (acceptedCoverMimeTypes.contains (jsToLower f.type) = true →
      ∃ g, ensureCoverFileCompatibility (some f) cover env = some g ∧
        acceptedCoverMimeTypes.contains g.type = true) ∧
    (acceptedCoverMimeTypes.contains (jsToLower f.type) = false →
      sourceDataUrlOf cover env = some du →
      env.canvasPngDataUrl = some png →
      dataUrlToFile png (normalizeFileNameForType f.name "image/png") (some "image/png") = some pf →
      ensureCoverFileCompatibility (some f) cover env = some pf ∧ pf.type = "image/png") ∧
    (acceptedCoverMimeTypes.contains (jsToLower f.type) = false →
      sourceDataUrlOf cover env = none →
      ensureCoverFileCompatibility (some f) cover env = some f) := by
  refine ⟨fun hacc => ?_, fun hnot hsrc hpng hfile => ?_, fun hnot hsrc => ?_⟩
  · by_cases hsame : normalizeFileNameForType f.name (jsToLower f.type) = f.name ∧
        f.type = jsToLower f.type
    · refine ⟨f, ?_, ?_⟩
      · simp only [ensureCoverFileCompatibility]
        rw [if_pos (by exact_mod_cast hacc), if_pos hsame]
      · rw [hsame.2]; exact hacc
    · refine ⟨{ name := normalizeFileNameForType f.name (jsToLower f.type)
                type := jsToLower f.type }, ?_, hacc⟩
      simp only [ensureCoverFileCompatibility]
      rw [if_pos (by exact_mod_cast hacc), if_neg hsame]
  · refine ⟨?_, dataUrlToFile_type _ _ _ _ (by decide) hfile⟩
    simp only [ensureCoverFileCompatibility]
    rw [if_neg (by simpa using hnot)]
    simp only [hsrc, hpng, hfile]
  · simp only [ensureCoverFileCompatibility]
    rw [if_neg (by simpa using hnot)]
    simp only [hsrc]

/-- C3 (witness): the amended theorem's conversion-success branch at a
concrete WebP file whose pipeline succeeds. -/
theorem c3_witness :
    (acceptedCoverMimeTypes.contains (jsToLower "image/webp") = false ∧
      sourceDataUrlOf (some exWebpCover)
        { readerDataUrl := none, canvasPngDataUrl := some "data:image/png;base64,BBBB" } =
        some "data:image/webp;base64,AAAA" ∧
      CompatEnv.canvasPngDataUrl
        { readerDataUrl := none, canvasPngDataUrl := some "data:image/png;base64,BBBB" } =
        some "data:image/png;base64,BBBB" ∧
      dataUrlToFile "data:image/png;base64,BBBB"
        (normalizeFileNameForType "x.webp" "image/png") (some "image/png") =
        some { name := "x.png", type := "image/png" }) ∧
    (ensureCoverFileCompatibility (some { name := "x.webp", type := "image/webp" })
        (some exWebpCover)
        { readerDataUrl := none, canvasPngDataUrl := some "data:image/png;base64,BBBB" } =
        some { name := "x.png", type := "image/png" } ∧
      JsFile.type { name := "x.png", type := "image/png" } = "image/png") :=
  ⟨⟨by decide, by decide, by decide, by decide⟩,
    (c3_normalization_best_effort { name := "x.webp", type := "image/webp" }
      { name := "x.png", type := "image/png" } (some exWebpCover)
      { readerDataUrl := none, canvasPngDataUrl := some "data:image/png;base64,BBBB" }
      "data:image/webp;base64,AAAA" "data:image/png;base64,BBBB").2.1
      (by decide) (by decide) (by decide) (by decide)⟩

/-! ## C5 — sanitization absoluteness -/

/-- Scheme characters followed by a colon always satisfy `hasSchemeTail`. -/
theorem hasSchemeTail_of_all (cs t : List Char) (h : cs.all isSchemeChar = true) :
    hasSchemeTail (cs ++ ':' :: t) = true := by
  induction cs with
  | nil => simp [hasSchemeTail]
  | cons c cs ih =>
    simp only [List.all_cons, Bool.and_eq_true] at h
    by_cases hc : c = ':'
    · simp [hasSchemeTail, hc]
    · simp [hasSchemeTail, hc, h.1, ih h.2]

/-- A string decomposing as `letter ++ schemeChars ++ ":" ++ anything` has a
scheme. -/
theorem hasScheme_decomp (v : String) (c : Char) (cs t : List Char)
    (hv : v.data = c :: (cs ++ ':' :: t)) (hc : c.isAlpha = true)
    (hcs : cs.all isSchemeChar = true) : hasScheme v = true := by
  unfold hasScheme
  rw [hv]
  simp [hc, hasSchemeTail_of_all cs t hcs]

/-- The attribute prefixes `absolutizeAttribute` skips are themselves URL
schemes: such values already count as absolute. -/
theorem hasScheme_of_skipped (v : String) (h : hasSkippedAttrPre v = true) :
    hasScheme v = true := by
  unfold hasSkippedAttrPre at h
  simp only [Bool.or_eq_true] at h
  rcases h with h | h
  · rcases h with h | h
    · obtain ⟨t, ht⟩ := List.isPrefixOf_iff_prefix.mp h
      exact hasScheme_decomp v 'd' ['a', 't', 'a'] t (by rw [← ht]; rfl) (by decide) (by decide)
    · obtain ⟨t, ht⟩ := List.isPrefixOf_iff_prefix.mp h
      exact hasScheme_decomp v 'm' ['a', 'i', 'l', 't', 'o'] t (by rw [← ht]; rfl)
        (by decide) (by decide)
  · obtain ⟨t, ht⟩ := List.isPrefixOf_iff_prefix.mp h
    exact hasScheme_decomp v 'j' ['a', 'v', 'a', 's', 'c', 'r', 'i', 'p', 't'] t
      (by rw [← ht]; rfl) (by decide) (by decide)

/-- A string of the shape `base.scheme ++ ":" ++ tail` (with arbitrary extra
appended text) has a scheme whenever the base scheme is wellformed. -/
theorem hasScheme_scheme_append (base : JsUrl) (w : String) (t : List Char)
    (hb : schemeOkB base.scheme = true) (hw : w.data = base.scheme.data ++ ':' :: t) :
    hasScheme w = true := by
  unfold schemeOkB at hb
  cases hd : base.scheme.data with
  | nil => rw [hd] at hb; exact absurd hb (by simp)
  | cons c cs =>
    rw [hd] at hb
    simp only [Bool.and_eq_true] at hb
    refine hasScheme_decomp w c cs t ?_ hb.1 hb.2
    rw [hw, hd]
    rfl

/-- Everything `resolveUrl` returns has a scheme, provided the base URL's
scheme is wellformed. -/
theorem resolveUrl_hasScheme (base : JsUrl) (v r : String)
    (hb : schemeOkB base.scheme = true) (h : resolveUrl base v = some r) :
    hasScheme r = true := by
  have hcolon : (":" : String).data = [':'] := rfl
  have hslashes : ("://" : String).data = [':', '/', '/'] := rfl
  unfold resolveUrl at h
  split at h
  · rename_i hv
    cases hp : parseAbsolute v with
    | none => rw [hp] at h; exact absurd h (by simp)
    | some u =>
      rw [hp] at h
      simp only [Option.map_some'] at h
      rw [← Option.some.inj h]
      exact hv
  · split at h
    · rename_i rest _
      cases hpa : parseAuthority rest with
      | none => rw [hpa] at h; exact absurd h (by simp)
      | some hp =>
        rw [hpa] at h
        simp only [Option.map_some', Option.some.injEq] at h
        refine hasScheme_scheme_append base r v.data hb ?_
        rw [← h]
        simp [hcolon]
    · rename_i tail _
      simp only [Option.some.injEq] at h
      refine hasScheme_scheme_append base r
        ('/' :: '/' :: base.host.data ++ v.data) hb ?_
      rw [← h]
      simp [hslashes]
    · simp only [Option.some.injEq] at h
      refine hasScheme_scheme_append base r
        ('/' :: '/' :: base.host.data ++
          ((if dirOfPath base.path = "" then "/" else dirOfPath base.path).data ++ v.data)) hb ?_
      rw [← h]
      simp [hslashes]

/-- Case classification of `absolutizeAttribute`'s result: it is an absolute
URL, or the empty string, or the unchanged original value on which the URL
constructor throws. -/
theorem sanitizeAttr_classify (base : JsUrl) (v : String)
    (hb : schemeOkB base.scheme = true) :
    isAbsoluteUrl (sanitizeAttr base v) = true ∨ sanitizeAttr base v = "" ∨
      (resolveUrl base (sanitizeAttr base v) = none ∧ sanitizeAttr base v = v) := by
  unfold sanitizeAttr
  by_cases hv : v = ""
  · right; left; simp [hv]
  · rw [if_neg hv]
    by_cases hskip : hasSkippedAttrPre v = true
    · rw [if_pos hskip]
      left
      exact hasScheme_of_skipped v hskip
    · rw [if_neg hskip]
      cases hr : resolveUrl base v with
      | none =>
        right; right
        exact ⟨by rw [hr], rfl⟩
      | some r =>
        left
        exact resolveUrl_hasScheme base v r hb hr

/-- C5 (counterexample): an element with a present but empty `src` attribute
survives sanitization unchanged, and the surviving value is not an absolute
URL — refuting "every `src`/`href`/`poster` value remaining in `bodyHtml` is
an absolute URL". -/
theorem c5_counterexample :
    sanitizeSElems exBlogBase [{ src := some "", href := none, poster := none }] =
      [{ src := some "", href := none, poster := none }] ∧
    "" ∈ SElem.attrValues { src := some "", href := none, poster := none } ∧
    isAbsoluteUrl "" = false := by
  refine ⟨rfl, by simp [SElem.attrValues], by decide⟩

/-- Sanitizing an element maps `absolutizeAttribute` over its present
attribute values. -/
theorem attrValues_sanitizeSElem (base : JsUrl) (e : SElem) :
    (sanitizeSElem base e).attrValues = e.attrValues.map (sanitizeAttr base) := by
  cases e with
  | mk s h p => cases s <;> cases h <;> cases p <;> rfl

/-- C5 (amended): after sanitization every remaining `src`/`href`/`poster`
attribute value is an absolute URL, **except** values that are empty and
values on which URL resolution against the base fails, which survive
unchanged (the `absolutizeAttribute` guard and catch branches). -/
theorem c5_sanitized_attrs (base : JsUrl) (es : List SElem)
    (hb : schemeOkB base.scheme = true) :
    ∀ e ∈ sanitizeSElems base es, ∀ v ∈ e.attrValues,
      isAbsoluteUrl v = true ∨ v = "" ∨ resolveUrl base v = none := by
  intro e he v hv
  obtain ⟨e0, _, he0⟩ := List.mem_map.mp he
  rw [← he0, attrValues_sanitizeSElem] at hv
  obtain ⟨u, _, hu⟩ := List.mem_map.mp hv
  rw [← hu]
  rcases sanitizeAttr_classify base u hb with h1 | h2 | ⟨h3, _⟩
  · exact Or.inl h1
  · exact Or.inr (Or.inl h2)
  · exact Or.inr (Or.inr h3)

/-- C5 (witness): the amended theorem applied to a concrete element list
containing a relative link, an empty `src` and an unresolvable `href`. -/
theorem c5_witness :
    schemeOkB exBlogBase.scheme = true ∧
    (∀ e ∈ sanitizeSElems exBlogBase
        [{ src := some "c.png", href := some "", poster := none },
         { src := none, href := some "//[", poster := some "/v.mp4" }],
      ∀ v ∈ e.attrValues,
        isAbsoluteUrl v = true ∨ v = "" ∨ resolveUrl exBlogBase v = none) :=
  ⟨by decide, c5_sanitized_attrs exBlogBase _ (by decide)⟩

/-! ## C4 — supported-source validation -/

/-- `ensureBlogUrl` throws exactly when the URL fails the blog scraper's
supported-entry check. -/
theorem ensureBlogUrlE_err (s : String) (h : blogUrlOk s = false) :
    ensureBlogUrlE s = .error .unsupportedPage := by
  unfold blogUrlOk at h
  unfold ensureBlogUrlE
  by_cases hs : s = ""
  · simp [hs]
  · rw [if_neg hs]
    cases hp : parseAbsolute s with
    | none => rfl
    | some u =>
      rw [hp] at h
      have hcond : ¬(u.host = "honzajavorek.cz" ∧ jsStartsWith u.path "/blog/" = true) := by
        rintro ⟨h1, h2⟩
        simp [hs, h1, h2] at h
      show (if u.host = "honzajavorek.cz" ∧ jsStartsWith u.path "/blog/" = true
            then Except.ok u else Except.error ScrapeErr.unsupportedPage) =
          Except.error ScrapeErr.unsupportedPage
      rw [if_neg hcond]

/-- `ensureBlogUrl` does not throw on URLs matching the blog scraper's
supported entry. -/
theorem ensureBlogUrlE_ok (s : String) (h : blogUrlOk s = true) :
    ∃ u, ensureBlogUrlE s = .ok u := by
  unfold blogUrlOk at h
  unfold ensureBlogUrlE
  by_cases hs : s = ""
  · rw [hs] at h; exact absurd h (by decide)
  · rw [if_neg hs]
    cases hp : parseAbsolute s with
    | none => rw [hp] at h; simp [hs] at h
    | some u =>
      rw [hp] at h
      obtain ⟨h2, h3⟩ : u.host = "honzajavorek.cz" ∧ jsStartsWith u.path "/blog/" = true := by
        simpa [hs] using h
      refine ⟨u, ?_⟩
      show (if u.host = "honzajavorek.cz" ∧ jsStartsWith u.path "/blog/" = true
            then Except.ok u else Except.error ScrapeErr.unsupportedPage) = Except.ok u
      rw [if_pos ⟨h2, h3⟩]

/-- junior.guru counterpart of `ensureBlogUrlE_err`. -/
theorem ensureSupportedUrlE_err (s : String) (h : jgUrlOk s = false) :
    ensureSupportedUrlE s = .error .unsupportedPage := by
  unfold jgUrlOk at h
  unfold ensureSupportedUrlE
  by_cases hs : s = ""
  · simp [hs]
  · rw [if_neg hs]
    cases hp : parseAbsolute s with
    | none => rfl
    | some u =>
      rw [hp] at h
      have hcond : ¬(u.host = "junior.guru" ∧ jsStartsWith u.path "/news/" = true) := by
        rintro ⟨h1, h2⟩
        simp [hs, h1, h2] at h
      show (if u.host = "junior.guru" ∧ jsStartsWith u.path "/news/" = true
            then Except.ok u else Except.error ScrapeErr.unsupportedPage) =
          Except.error ScrapeErr.unsupportedPage
      rw [if_neg hcond]

/-- junior.guru counterpart of `ensureBlogUrlE_ok`. -/
theorem ensureSupportedUrlE_ok (s : String) (h : jgUrlOk s = true) :
    ∃ u, ensureSupportedUrlE s = .ok u := by
  unfold jgUrlOk at h
  unfold ensureSupportedUrlE
  by_cases hs : s = ""
  · rw [hs] at h; exact absurd h (by decide)
  · rw [if_neg hs]
    cases hp : parseAbsolute s with
    | none => rw [hp] at h; simp [hs] at h
    | some u =>
      rw [hp] at h
      obtain ⟨h2, h3⟩ : u.host = "junior.guru" ∧ jsStartsWith u.path "/news/" = true := by
        simpa [hs] using h
      refine ⟨u, ?_⟩
      show (if u.host = "junior.guru" ∧ jsStartsWith u.path "/news/" = true
            then Except.ok u else Except.error ScrapeErr.unsupportedPage) = Except.ok u
      rw [if_pos ⟨h2, h3⟩]

/-- Definitional expansion of `resolveSourceDetails` on a present URL. -/
theorem resolveSourceDetails_expand (s : String) :
    resolveSourceDetails (some s) =
      (if s = "" then
        Except.error { name := "POSSEUnsupportedSource", message := bgUnsupportedMessage }
      else
        match parseAbsolute s with
        | none =>
          Except.error { name := "POSSEUnsupportedSource", message := bgUnsupportedMessage }
        | some parsed =>
          match SOURCES.find? (matchesSource parsed) with
          | some config => Except.ok (parsed, config)
          | none =>
            Except.error { name := "POSSEUnsupportedSource", message := bgUnsupportedMessage }) := rfl

/-- C4: validation against the supported source table.  An unsupported URL
makes each scraper throw its fixed unsupported-page message as the very
first step — no (partial) ArticleRecord is ever produced — and makes the
background coordinator throw its fixed `POSSEUnsupportedSource` error; a URL
matching the validator's supported entry never makes the validation throw. -/
theorem c4_supported_source_validation :
    (∀ (doc : BlogDoc) (env : ImgEnv), blogUrlOk doc.locationHref = false →
      blogScrape doc env = .error .unsupportedPage) ∧
    (∀ s, blogUrlOk s = true → ∃ u, ensureBlogUrlE s = .ok u) ∧
    (∀ (doc : JgDoc) (env : ImgEnv), jgUrlOk doc.locationHref = false →
      jgScrape doc env = .error .unsupportedPage) ∧
    (∀ s, jgUrlOk s = true → ∃ u, ensureSupportedUrlE s = .ok u) ∧
    (∀ s, anySourceMatches s = false →
      resolveSourceDetails (some s) =
        .error { name := "POSSEUnsupportedSource", message := bgUnsupportedMessage }) ∧
    (∀ s, anySourceMatches s = true → ∃ p, resolveSourceDetails (some s) = .ok p) ∧
    blogErrMessage .unsupportedPage =
      "POSSE currently supports only articles on https://honzajavorek.cz/blog/." ∧
    jgErrMessage .unsupportedPage =
      "POSSE currently supports articles on https://honzajavorek.cz/blog/ and https://junior.guru/news/." := by
  refine ⟨?_, ensureBlogUrlE_ok, ?_, ensureSupportedUrlE_ok, ?_, ?_, rfl, rfl⟩
  · intro doc env h
    unfold blogScrape
    rw [ensureBlogUrlE_err _ h]
  · intro doc env h
    unfold jgScrape
    rw [ensureSupportedUrlE_err _ h]
  · intro s h
    unfold anySourceMatches at h
    by_cases hs : s = ""
    · subst hs; rfl
    · rw [resolveSourceDetails_expand s, if_neg hs]
      cases hp : parseAbsolute s with
      | none => rfl
      | some u =>
        rw [hp] at h
        show ((match SOURCES.find? (matchesSource u) with
              | some config => Except.ok (u, config)
              | none => Except.error
                  { name := "POSSEUnsupportedSource", message := bgUnsupportedMessage }) :
            Except BgErr (JsUrl × SourceCfg)) = _
        have hall : ∀ cfg ∈ SOURCES, matchesSource u cfg = false := by
          intro cfg hcfg
          have h' : SOURCES.any (matchesSource u) = false := by simpa [hs] using h
          simpa using (List.any_eq_false).mp h' cfg hcfg
        have hfind : SOURCES.find? (matchesSource u) = none := by
          rw [List.find?_eq_none]
          intro cfg hcfg
          simp [hall cfg hcfg]
        rw [hfind]
  · intro s h
    unfold anySourceMatches at h
    by_cases hs : s = ""
    · rw [hs] at h; exact absurd h (by decide)
    · rw [resolveSourceDetails_expand s, if_neg hs]
      cases hp : parseAbsolute s with
      | none => rw [hp] at h; simp [hs] at h
      | some u =>
        rw [hp] at h
        have h' : SOURCES.any (matchesSource u) = true := by simpa [hs] using h
        obtain ⟨cfg, hmem, hcfg⟩ := List.any_eq_true.mp h'
        have : ∃ c, SOURCES.find? (matchesSource u) = some c := by
          cases hf : SOURCES.find? (matchesSource u) with
          | some c => exact ⟨c, rfl⟩
          | none =>
            rw [List.find?_eq_none] at hf
            exact absurd hcfg (by simpa using hf cfg hmem)
        obtain ⟨c, hc⟩ := this
        refine ⟨(u, c), ?_⟩
        show ((match SOURCES.find? (matchesSource u) with
              | some config => Except.ok (u, config)
              | none => Except.error
                  { name := "POSSEUnsupportedSource", message := bgUnsupportedMessage }) :
            Except BgErr (JsUrl × SourceCfg)) = _
        rw [hc]

/-- C4 (witness): the theorem applied to a supported and an unsupported
concrete URL. -/
theorem c4_witness :
    (blogUrlOk "https://example.org/blog/x" = false ∧
      blogUrlOk "https://honzajavorek.cz/blog/x" = true ∧
      jgUrlOk "https://junior.guru/news/42/" = true ∧
      anySourceMatches "https://example.org/news/" = false ∧
      anySourceMatches "https://junior.guru/news/42/" = true) ∧
    (blogScrape { exBlogDocDup with locationHref := "https://example.org/blog/x" } exImgEnvNone =
      .error .unsupportedPage) ∧
    (∃ u, ensureBlogUrlE "https://honzajavorek.cz/blog/x" = .ok u) ∧
    (∃ u, ensureSupportedUrlE "https://junior.guru/news/42/" = .ok u) ∧
    (resolveSourceDetails (some "https://example.org/news/") =
      .error { name := "POSSEUnsupportedSource", message := bgUnsupportedMessage }) ∧
    (∃ p, resolveSourceDetails (some "https://junior.guru/news/42/") = .ok p) :=
  ⟨⟨by decide, by decide, by decide, by decide, by decide⟩,
    c4_supported_source_validation.1 _ exImgEnvNone (by decide),
    c4_supported_source_validation.2.1 _ (by decide),
    c4_supported_source_validation.2.2.2.1 _ (by decide),
    c4_supported_source_validation.2.2.2.2.1 _ (by decide),
    c4_supported_source_validation.2.2.2.2.2.1 _ (by decide)⟩

/-! ## C6 — element locator -/

/-- C6 (counterexample): `waitForElement` does **not** "never throw or
reject, for any selector input": a syntactically invalid selector makes the
initial `querySelector` throw inside the `Promise` executor, so the returned
promise rejects.  Also, a falsy (empty) selector resolves null immediately,
after zero polling ticks, not after the `attempts × interval` budget. -/
theorem c6_counterexample :
    waitForElementRun Nat "!!" 5 none [] = (.rejected, 0) ∧
    waitForElementRun Nat "" 5 none [] = (.resolved none, 0) ∧ (0 : Nat) ≠ 5 := by
  refine ⟨by decide, by decide, by decide⟩

/-- The polling loop never rejects. -/
theorem waitLoop_ne_rejected (E : Type) (m a : Nat) (evs : List (WQuery E)) :
    (waitLoop E m a evs).1 ≠ .rejected := by
  induction evs generalizing a with
  | nil => simp [waitLoop]
  | cons ev rest ih =>
    cases ev with
    | tick q =>
      simp only [waitLoop]
      split
      · simp
      · cases q with
        | some e0 => simp
        | none => simpa using ih (a + 1)
    | check q =>
      cases q with
      | some e0 => simp [waitLoop]
      | none => simpa [waitLoop] using ih a

/-- When the loop resolves with an element, that element was the query answer
of some executed check. -/
theorem waitLoop_resolved_mem (E : Type) (m a : Nat) (evs : List (WQuery E)) (e : E)
    (h : (waitLoop E m a evs).1 = .resolved (some e)) :
    .tick (some e) ∈ evs ∨ .check (some e) ∈ evs := by
  induction evs generalizing a with
  | nil => simp [waitLoop] at h
  | cons ev rest ih =>
    cases ev with
    | tick q =>
      simp only [waitLoop] at h
      split at h
      · simp at h
      · cases q with
        | some e0 =>
          simp only [WaitOutcome.resolved.injEq, Option.some.injEq] at h
          subst h
          exact Or.inl (List.mem_cons_self _ _)
        | none =>
          simp only at h
          rcases ih (a + 1) h with h1 | h2
          · exact Or.inl (List.mem_cons_of_mem _ h1)
          · exact Or.inr (List.mem_cons_of_mem _ h2)
    | check q =>
      cases q with
      | some e0 =>
        simp only [waitLoop, WaitOutcome.resolved.injEq, Option.some.injEq] at h
        subst h
        exact Or.inr (List.mem_cons_self _ _)
      | none =>
        simp only [waitLoop] at h
        rcases ih a h with h1 | h2
        · exact Or.inl (List.mem_cons_of_mem _ h1)
        · exact Or.inr (List.mem_cons_of_mem _ h2)

/-- When the loop resolves null, the number of ticks it consumed together
with the attempts already spent is exactly the budget (at least one tick is
always consumed, covering the degenerate `maxAttempts = 0`). -/
theorem waitLoop_resolved_none_ticks (E : Type) (m a : Nat) (evs : List (WQuery E))
    (h : (waitLoop E m a evs).1 = .resolved none) :
    (waitLoop E m a evs).2 + a = max (a + 1) m := by
  induction evs generalizing a with
  | nil => simp [waitLoop] at h
  | cons ev rest ih =>
    cases ev with
    | tick q =>
      simp only [waitLoop] at h ⊢
      split at h <;> rename_i hm
      · simp only [if_pos hm]
        omega
      · cases q with
        | some e0 => simp at h
        | none =>
          simp only at h
          have := ih (a + 1) h
          simp only [if_neg hm]
          omega
    | check q =>
      cases q with
      | some e0 => simp [waitLoop] at h
      | none =>
        simp only [waitLoop] at h ⊢
        have := ih a h
        omega

/-- C6 (amended): for a syntactically valid selector the locator's promise
never rejects; whenever it resolves with an element, that element was
attached (the `querySelector` answer) at the initial check or at some
executed poll/observer check; whenever it resolves null for a valid
non-empty selector it has consumed exactly `max 1 maxAttempts` polling ticks
(the attempts budget); an empty selector resolves null immediately; and an
invalid selector rejects the promise (the unguarded initial `querySelector`
throws inside the executor). -/
theorem c6_locator_contract (E : Type) (sel : String) (m : Nat) (iq : Option E)
    (evs : List (WQuery E)) :
    (cssSelectorOk sel = true → (waitForElementRun E sel m iq evs).1 ≠ .rejected) ∧
    (∀ e, (waitForElementRun E sel m iq evs).1 = .resolved (some e) →
      iq = some e ∨ .tick (some e) ∈ evs ∨ .check (some e) ∈ evs) ∧
    (sel ≠ "" → cssSelectorOk sel = true →
      (waitForElementRun E sel m iq evs).1 = .resolved none →
      (waitForElementRun E sel m iq evs).2 = max 1 m) ∧
    waitForElementRun E "" m iq evs = (.resolved none, 0) ∧
    (sel ≠ "" → cssSelectorOk sel = false →
      waitForElementRun E sel m iq evs = (.rejected, 0)) := by
  refine ⟨?_, ?_, ?_, rfl, ?_⟩
  · intro hok
    unfold waitForElementRun
    have hne : sel ≠ "" := by
      intro he
      rw [he] at hok
      exact absurd hok (by decide)
    rw [if_neg hne, if_neg (by simp [hok])]
    cases iq with
    | some e0 => simp
    | none => exact waitLoop_ne_rejected E m 0 evs
  · intro e h
    unfold waitForElementRun at h
    by_cases hne : sel = ""
    · rw [if_pos hne] at h
      simp at h
    · rw [if_neg hne] at h
      by_cases hok : cssSelectorOk sel = true
      · rw [if_neg (by simp [hok])] at h
        cases iq with
        | some e0 =>
          simp only [WaitOutcome.resolved.injEq, Option.some.injEq] at h
          exact Or.inl (by rw [h])
        | none => exact Or.inr (waitLoop_resolved_mem E m 0 evs e h)
      · rw [if_pos (by simpa using hok)] at h
        simp at h
  · intro hne hok h
    unfold waitForElementRun at h ⊢
    rw [if_neg hne, if_neg (by simp [hok])] at h ⊢
    cases iq with
    | some e0 => simp at h
    | none => simpa using waitLoop_resolved_none_ticks E m 0 evs h
  · intro hne hok
    unfold waitForElementRun
    rw [if_neg hne, if_pos (by simp [hok])]

/-- C6 (witness): the amended contract applied to a valid selector whose run
times out after three ticks, and to runs that find an element. -/
theorem c6_witness :
    ("#article-editor-headline" ≠ "" ∧
      cssSelectorOk "#article-editor-headline" = true ∧
      (waitForElementRun Nat "#article-editor-headline" 3 none
        [.tick none, .check none, .tick none, .tick none]).1 = .resolved none) ∧
    (waitForElementRun Nat "#article-editor-headline" 3 none
      [.tick none, .check none, .tick none, .tick none]).2 = max 1 3 :=
  ⟨⟨by decide, by decide, by decide⟩,
    (c6_locator_contract Nat "#article-editor-headline" 3 none
      [.tick none, .check none, .tick none, .tick none]).2.2.1
      (by decide) (by decide) (by decide)⟩

/-! ## C7 — coordinator at-most-once delivery -/

/-- Deleting a tab's task removes its binding from the pending map. -/
theorem lookupTask_delete (s : CoordState) (t : Nat) :
    lookupTask (deleteTask s t) t = none := by
  induction s with
  | nil => rfl
  | cons p rest ih =>
    by_cases hp : p.1 = t
    · simpa [lookupTask, deleteTask, List.filter_cons, hp] using ih
    · simpa [lookupTask, deleteTask, List.filter_cons, List.find?_cons, hp] using ih

theorem lookupTask_none_delete (s : CoordState) (t u : Nat)
    (h : lookupTask s t = none) : lookupTask (deleteTask s u) t = none := by
  induction s with
  | nil => rfl
  | cons p rest ih =>
    by_cases hp : p.1 = t
    · simp [lookupTask, List.find?_cons, hp] at h
    · simp only [lookupTask, List.find?_cons, hp, decide_eq_true_eq, if_false] at h
      by_cases hpu : p.1 = u
      · simpa [lookupTask, deleteTask, List.filter_cons, hpu] using
          ih (by simpa [lookupTask, hp] using h)
      · simpa [lookupTask, deleteTask, List.filter_cons, List.find?_cons, hp, hpu] using
          ih (by simpa [lookupTask, hp] using h)

theorem lookupTask_filter_ne (s : CoordState) (t u : Nat) (hne : u ≠ t) :
    lookupTask (s.filter (fun p => p.1 ≠ u)) t = lookupTask s t := by
  have htu : ¬t = u := fun hh => hne hh.symm
  induction s with
  | nil => rfl
  | cons p rest ih =>
    by_cases hp : p.1 = t
    · simp [lookupTask, List.filter_cons, List.find?_cons, hp, htu]
    · by_cases hpu : p.1 = u
      · simpa [lookupTask, List.filter_cons, List.find?_cons, hp, hpu, hne] using ih
      · simpa [lookupTask, List.filter_cons, List.find?_cons, hp, hpu, hne] using ih

theorem lookupTask_set_ne (s : CoordState) (t u : Nat) (task : PendingTask)
    (hne : u ≠ t) : lookupTask (setTask s u task) t = lookupTask s t := by
  have h1 : lookupTask (setTask s u task) t =
      lookupTask (s.filter (fun p => p.1 ≠ u)) t := by
    simp [lookupTask, setTask, List.find?_cons, hne]
  rw [h1, lookupTask_filter_ne s t u hne]

theorem coordStep_delivered_removed (s : CoordState) (e : CoordEvent) (t : Nat)
    (h : deliveredTab (coordStep s e).2 = some t) :
    lookupTask (coordStep s e).1 t = none := by
  cases e with
  | createTask tab task => simp [coordStep, deliveredTab] at h
  | tabRemoved tab => simp [coordStep, deliveredTab] at h
  | request msg sender =>
    cases msg with
    | requestUrl =>
      cases sender with
      | none => simp [coordStep, deliveredTab] at h
      | some tab =>
        simp only [coordStep] at h ⊢
        cases hl : lookupTask s tab with
        | none => rw [hl] at h; simp [deliveredTab] at h
        | some details =>
          rw [hl] at h
          by_cases hd : details.ttype = TaskType.discord
          · simp only [hd, if_true, deliveredTab, Option.some.injEq] at h ⊢
            subst h
            exact lookupTask_delete s tab
          · simp [hd, deliveredTab] at h
    | requestLinkedInMetadata =>
      cases sender with
      | none => simp [coordStep, deliveredTab] at h
      | some tab =>
        simp only [coordStep] at h ⊢
        cases hl : lookupTask s tab with
        | none => rw [hl] at h; simp [deliveredTab] at h
        | some details =>
          rw [hl] at h
          by_cases hd : details.ttype = TaskType.linkedin
          · simp only [hd, if_true, deliveredTab, Option.some.injEq] at h ⊢
            subst h
            exact lookupTask_delete s tab
          · simp [hd, deliveredTab] at h
    | other => simp [coordStep, deliveredTab] at h

theorem coordStep_preserve_none (s : CoordState) (e : CoordEvent) (t : Nat)
    (h : lookupTask s t = none) (hc : isCreateFor t e = false) :
    lookupTask (coordStep s e).1 t = none := by
  cases e with
  | createTask tab task =>
    have htab : tab ≠ t := by simpa [isCreateFor] using hc
    simpa [coordStep, lookupTask_set_ne s t tab task htab] using h
  | tabRemoved tab => exact lookupTask_none_delete s t tab h
  | request msg sender =>
    cases msg with
    | requestUrl =>
      cases sender with
      | none => simpa [coordStep] using h
      | some tab =>
        simp only [coordStep]
        cases hl : lookupTask s tab with
        | none => simpa using h
        | some details =>
          by_cases hd : details.ttype = TaskType.discord
          · simp only [hd, if_true]
            exact lookupTask_none_delete s t tab h
          · simpa [hd] using h
    | requestLinkedInMetadata =>
      cases sender with
      | none => simpa [coordStep] using h
      | some tab =>
        simp only [coordStep]
        cases hl : lookupTask s tab with
        | none => simpa using h
        | some details =>
          by_cases hd : details.ttype = TaskType.linkedin
          · simp only [hd, if_true]
            exact lookupTask_none_delete s t tab h
          · simpa [hd] using h
    | other => simpa [coordStep] using h

theorem coordStep_delivered_requires (s : CoordState) (e : CoordEvent) (t : Nat)
    (h : deliveredTab (coordStep s e).2 = some t) :
    ∃ task, lookupTask s t = some task := by
  cases e with
  | createTask tab task => simp [coordStep, deliveredTab] at h
  | tabRemoved tab => simp [coordStep, deliveredTab] at h
  | request msg sender =>
    cases msg with
    | requestUrl =>
      cases sender with
      | none => simp [coordStep, deliveredTab] at h
      | some tab =>
        simp only [coordStep] at h
        cases hl : lookupTask s tab with
        | none => rw [hl] at h; simp [deliveredTab] at h
        | some details =>
          rw [hl] at h
          by_cases hd : details.ttype = TaskType.discord
          · simp only [hd, if_true, deliveredTab, Option.some.injEq] at h
            subst h
            exact ⟨details, hl⟩
          · simp [hd, deliveredTab] at h
    | requestLinkedInMetadata =>
      cases sender with
      | none => simp [coordStep, deliveredTab] at h
      | some tab =>
        simp only [coordStep] at h
        cases hl : lookupTask s tab with
        | none => rw [hl] at h; simp [deliveredTab] at h
        | some details =>
          rw [hl] at h
          by_cases hd : details.ttype = TaskType.linkedin
          · simp only [hd, if_true, deliveredTab, Option.some.injEq] at h
            subst h
            exact ⟨details, hl⟩
          · simp [hd, deliveredTab] at h
    | other => simp [coordStep, deliveredTab] at h

theorem coordReplies_delivery_needs_create (s : CoordState) (t : Nat)
    (evs : List CoordEvent) (k : Nat) (r : CoordReply)
    (hs : lookupTask s t = none)
    (hk : (coordReplies s evs).get? k = some r) (hd : deliveredTab r = some t) :
    ∃ m task, m < k ∧ evs.get? m = some (.createTask t task) := by
  induction evs generalizing s k with
  | nil => simp [coordReplies] at hk
  | cons e rest ih =>
    cases k with
    | zero =>
      simp only [coordReplies, List.get?] at hk
      obtain ⟨task, htask⟩ := coordStep_delivered_requires s e t
        (by rw [Option.some.inj hk]; exact hd)
      rw [hs] at htask
      exact absurd htask (by simp)
    | succ k0 =>
      simp only [coordReplies, List.get?] at hk
      by_cases hcr : isCreateFor t e = true
      · obtain ⟨task, htask⟩ : ∃ task, e = .createTask t task := by
          cases e <;> simp_all [isCreateFor]
        exact ⟨0, task, Nat.succ_pos k0, by simp [htask]⟩
      · have hs' : lookupTask (coordStep s e).1 t = none :=
          coordStep_preserve_none s e t hs (by simpa using hcr)
        obtain ⟨m, task, hm, hget⟩ := ih (coordStep s e).1 k0 hs' hk
        exact ⟨m + 1, task, Nat.succ_lt_succ hm, by simpa using hget⟩

theorem c7_two_deliveries (s : CoordState) (evs : List CoordEvent)
    (t i j : Nat) (ri rj : CoordReply)
    (hi : (coordReplies s evs).get? i = some ri) (hdi : deliveredTab ri = some t)
    (hj : (coordReplies s evs).get? j = some rj) (hdj : deliveredTab rj = some t)
    (hij : i < j) :
    ∃ k task, i < k ∧ k < j ∧ evs.get? k = some (.createTask t task) := by
  induction evs generalizing s i j with
  | nil => simp [coordReplies] at hi
  | cons e rest ih =>
    cases i with
    | zero =>
      simp only [coordReplies, List.get?] at hi
      have hrm : lookupTask (coordStep s e).1 t = none :=
        coordStep_delivered_removed s e t (by rw [Option.some.inj hi]; exact hdi)
      cases j with
      | zero => exact absurd hij (by omega)
      | succ j0 =>
        simp only [coordReplies, List.get?] at hj
        obtain ⟨m, task, hm, hget⟩ :=
          coordReplies_delivery_needs_create (coordStep s e).1 t rest j0 rj hrm hj hdj
        exact ⟨m + 1, task, Nat.succ_pos m, Nat.succ_lt_succ hm, by simpa using hget⟩
    | succ i0 =>
      cases j with
      | zero => exact absurd hij (by omega)
      | succ j0 =>
        simp only [coordReplies, List.get?] at hi hj
        obtain ⟨k, task, hik, hkj, hget⟩ :=
          ih (coordStep s e).1 i0 j0 hi hj (by omega)
        exact ⟨k + 1, task, by omega, by omega, by simpa using hget⟩


/-- C7: at-most-once delivery.  A success response removes the delivered task
from the pending map in the same step; a tab closure removes the closing
tab's task; and any two success deliveries to the same tab are separated by
a fresh task creation for that tab — so each created task is delivered to at
most one requester. -/
theorem c7_at_most_once_delivery :
    (∀ (s : CoordState) (e : CoordEvent) (t : Nat),
      deliveredTab (coordStep s e).2 = some t → lookupTask (coordStep s e).1 t = none) ∧
    (∀ (s : CoordState) (t : Nat), lookupTask (coordStep s (.tabRemoved t)).1 t = none) ∧
    (∀ (s : CoordState) (evs : List CoordEvent) (t i j : Nat) (ri rj : CoordReply),
      (coordReplies s evs).get? i = some ri → deliveredTab ri = some t →
      (coordReplies s evs).get? j = some rj → deliveredTab rj = some t →
      i < j → ∃ k task, i < k ∧ k < j ∧ evs.get? k = some (.createTask t task)) :=
  ⟨coordStep_delivered_removed, fun s t => lookupTask_delete s t, c7_two_deliveries⟩

/-- C7 (witness): the theorem applied to a concrete run in which the same tab
is served twice, with a re-creation in between. -/
theorem c7_witness :
    ((coordReplies [] exCoordEvents).get? 1 =
        some (.deliveredDiscord 1 "https://honzajavorek.cz/blog/x/") ∧
      deliveredTab (.deliveredDiscord 1 "https://honzajavorek.cz/blog/x/") = some 1 ∧
      (coordReplies [] exCoordEvents).get? 3 =
        some (.deliveredDiscord 1 "https://honzajavorek.cz/blog/x/") ∧
      (1 : Nat) < 3) ∧
    (∃ k task, 1 < k ∧ k < 3 ∧ exCoordEvents.get? k = some (.createTask 1 task)) ∧
    lookupTask (coordStep [(2, exCoordTask)] (.tabRemoved 2)).1 2 = none :=
  ⟨⟨by decide, by decide, by decide, by decide⟩,
    c7_at_most_once_delivery.2.2 [] exCoordEvents 1 1 3
      (.deliveredDiscord 1 "https://honzajavorek.cz/blog/x/")
      (.deliveredDiscord 1 "https://honzajavorek.cz/blog/x/")
      (by decide) (by decide) (by decide) (by decide) (by decide),
    c7_at_most_once_delivery.2.1 [(2, exCoordTask)] 2⟩

/-! ## C1 and C2 — cover extraction -/

/-- `sanitizeClone` maps `absolutizeAttribute` over the body's images. -/
theorem blocksImgs_sanitizeBlocks (base : JsUrl) (bs : List Block) :
    blocksImgs (sanitizeBlocks base bs) = (blocksImgs bs).map (sanitizeImg base) := by
  induction bs with
  | nil => rfl
  | cons b rest ih =>
    have ih' : (List.filterMap (sanitizeBlock base) rest).flatMap Block.imgs =
        List.map (sanitizeImg base) (rest.flatMap Block.imgs) := by
      simpa [sanitizeBlocks, blocksImgs] using ih
    cases b <;>
      simp [sanitizeBlocks, sanitizeBlock, blocksImgs, Block.imgs, List.filterMap_cons, ih']

/-- The admonition transform leaves the body's images untouched. -/
theorem blocksImgs_convertAdmonitionsB (bs : List Block) :
    blocksImgs (convertAdmonitionsB bs) = blocksImgs bs := by
  induction bs with
  | nil => rfl
  | cons b rest ih =>
    have ih' : (rest.map (fun b =>
        match b with
        | Block.admonition h => Block.blockquote h
        | b => b)).flatMap Block.imgs = rest.flatMap Block.imgs := by
      simpa [convertAdmonitionsB, blocksImgs] using ih
    cases b <;> simp [convertAdmonitionsB, blocksImgs, Block.imgs, ih']

/-- Caption link-stripping leaves the body's images untouched. -/
theorem blocksImgs_stripCaptionLinksB (bs : List Block) :
    blocksImgs (stripCaptionLinksB bs) = blocksImgs bs := by
  induction bs with
  | nil => rfl
  | cons b rest ih =>
    have ih' : (rest.map (fun b =>
        match b with
        | Block.figure imgs cap => Block.figure imgs (cap.map (·.map stripCapPart))
        | b => b)).flatMap Block.imgs = rest.flatMap Block.imgs := by
      simpa [stripCaptionLinksB, blocksImgs] using ih
    cases b <;> simp [stripCaptionLinksB, blocksImgs, Block.imgs, ih']

/-- The images of the sanitized clone are the sanitized original images. -/
theorem blocksImgs_clone (base : JsUrl) (bs : List Block) :
    blocksImgs (blogSanitizedClone base bs) = (blocksImgs bs).map (sanitizeImg base) := by
  unfold blogSanitizedClone
  rw [blocksImgs_stripCaptionLinksB, blocksImgs_convertAdmonitionsB,
    blocksImgs_sanitizeBlocks]

/-- Where `toAbsoluteUrl` succeeds, `absolutizeAttribute` writes exactly
that absolute value. -/
theorem sanitizeAttr_eq_toAbsoluteUrl (base : JsUrl) (s : String)
    (h : toAbsoluteUrl base s ≠ "") : sanitizeAttr base s = toAbsoluteUrl base s := by
  by_cases hs : s = ""
  · exact absurd (by simp [toAbsoluteUrl, hs]) h
  · unfold sanitizeAttr
    rw [if_neg hs]
    by_cases hskip : hasSkippedAttrPre s = true
    · rw [if_pos hskip]
      have hsch : hasScheme s = true := hasScheme_of_skipped s hskip
      cases hp : parseAbsolute s with
      | none =>
        exact absurd (by simp [toAbsoluteUrl, hs, resolveUrl, hsch, hp]) h
      | some u =>
        have hres : resolveUrl base s = some s := by
          unfold resolveUrl
          rw [if_pos hsch, hp]
          rfl
        simp [toAbsoluteUrl, hs, hres]
    · rw [if_neg hskip]
      cases hr : resolveUrl base s with
      | none => exact absurd (by simp [toAbsoluteUrl, hs, hr]) h
      | some r => simp [toAbsoluteUrl, hs, hr]

/-- Removing the block of the first image splits the body into an imageless
head, the removed image-bearing block, and the tail. -/
theorem removeContainingBlock_zero (bs : List Block) (h : blocksImgs bs ≠ []) :
    ∃ pre b post, removeContainingBlock bs 0 = some (b, pre ++ post) ∧
      bs = pre ++ b :: post ∧ (∀ x ∈ pre, x.imgs = []) ∧ b.imgs ≠ [] := by
  induction bs with
  | nil => exact absurd rfl h
  | cons b rest ih =>
    by_cases hb : b.imgs = []
    · have hrest : blocksImgs rest ≠ [] := by
        simpa [blocksImgs, hb] using h
      obtain ⟨pre, bb, post, h1, h2, h3, h4⟩ := ih hrest
      refine ⟨b :: pre, bb, post, ?_, by simp [h2], ?_, h4⟩
      · simp only [removeContainingBlock, hb]
        simp [h1]
      · intro x hx
        rcases List.mem_cons.mp hx with hx | hx
        · rw [hx]; exact hb
        · exact h3 x hx
    · refine ⟨[], b, rest, ?_, rfl, by simp, hb⟩
      simp only [removeContainingBlock]
      rw [if_pos (by simpa [List.length_pos] using hb)]
      rfl

/-- The index search answers 0 when the head already matches. -/
theorem jsFindIdx_head {α : Type} (p : α → Bool) (x : α) (xs : List α)
    (h : p x = true) : jsFindIdx p (x :: xs) = some 0 := by
  simp [jsFindIdx, h]

/-- The junior.guru URL validator only ever throws the unsupported-page
error. -/
theorem ensureSupportedUrlE_error_shape (s : String) (e : ScrapeErr)
    (h : ensureSupportedUrlE s = .error e) : e = .unsupportedPage := by
  unfold ensureSupportedUrlE at h
  split at h
  · simpa using h.symm
  · split at h
    · simpa using h.symm
    · split at h
      · exact absurd h (by simp)
      · simpa using h.symm

/-- The junior.guru title getter only throws title errors. -/
theorem getJgTitleE_error_shape (doc : JgDoc) (e : ScrapeErr)
    (h : getJgTitleE doc = .error e) : e = .missingTitle ∨ e = .emptyTitle := by
  unfold getJgTitleE at h
  cases hh : doc.heading with
  | none =>
    rw [hh] at h
    exact Or.inl (by simpa using h.symm)
  | some hd =>
    rw [hh] at h
    by_cases ht : jsTrim hd.textWithoutAnchors = ""
    · simp only [ht, if_true] at h
      exact Or.inr (by simpa using h.symm)
    · simp only [ht, if_false] at h
      exact absurd h (by simp)

/-- The junior.guru canonical getter only throws the unsupported-page
error. -/
theorem getCanonicalUrlJg_error_shape (doc : JgDoc) (u : JsUrl) (e : ScrapeErr)
    (h : getCanonicalUrlJg doc u = .error e) : e = .unsupportedPage := by
  unfold getCanonicalUrlJg at h
  cases hc : doc.canonicalHref with
  | none =>
    rw [hc] at h
    exact absurd h (by simp)
  | some cu =>
    rw [hc] at h
    by_cases hcu : cu = ""
    · simp only [hcu, if_true] at h
      exact absurd h (by simp)
    · simp only [hcu, if_false] at h
      cases he : ensureSupportedUrlE cu with
      | error e2 =>
        rw [he] at h
        simp only [Except.map, Except.error.injEq] at h
        rw [← h]
        exact ensureSupportedUrlE_error_shape _ e2 he
      | ok u2 =>
        rw [he] at h
        simp [Except.map] at h

/-- The junior.guru og:image getter only throws og:image errors. -/
theorem getOgImageUrlJg_error_shape (doc : JgDoc) (u : JsUrl) (e : ScrapeErr)
    (h : getOgImageUrlJg doc u = .error e) : e = .noOgImage ∨ e = .ogNotAbsolute := by
  unfold getOgImageUrlJg at h
  by_cases hc : getMetaContent doc.ogImageContent = ""
  · simp only [hc, if_true] at h
    exact Or.inl (by simpa using h.symm)
  · simp only [hc, if_false] at h
    by_cases ha : toAbsoluteUrl u (getMetaContent doc.ogImageContent) = ""
    · simp only [ha, if_true] at h
      exact Or.inr (by simpa using h.symm)
    · simp only [ha, if_false] at h
      exact absurd h (by simp)

/-- The junior.guru scraper has no first-image/og:image comparison: no run
ever fails with the cover-mismatch error. -/
theorem jgScrape_no_coverMismatch (doc : JgDoc) (env : ImgEnv) :
    jgScrape doc env ≠ .error .coverMismatch := by
  intro h
  unfold jgScrape at h
  cases h1 : ensureSupportedUrlE doc.locationHref with
  | error e1 =>
    simp only [h1] at h
    have := ensureSupportedUrlE_error_shape _ e1 h1
    simp_all
  | ok currentUrl =>
    simp only [h1] at h
    cases h2 : doc.issue with
    | none => simp only [h2] at h; simp at h
    | some issue =>
      simp only [h2] at h
      cases h3 : getJgTitleE doc with
      | error e3 =>
        simp only [h3] at h
        rcases getJgTitleE_error_shape doc e3 h3 with h' | h' <;> simp_all
      | ok title =>
        simp only [h3] at h
        cases h4 : getCanonicalUrlJg doc currentUrl with
        | error e4 =>
          simp only [h4] at h
          have := getCanonicalUrlJg_error_shape doc currentUrl e4 h4
          simp_all
        | ok canonicalUrl =>
          simp only [h4] at h
          cases h5 : getOgImageUrlJg doc currentUrl with
          | error e5 =>
            simp only [h5] at h
            rcases getOgImageUrlJg_error_shape doc currentUrl e5 h5 with h' | h' <;> simp_all
          | ok ogImageUrl =>
            simp only [h5] at h
            simp at h

/-- A body of imageless blocks has no images. -/
theorem blocksImgs_eq_nil_of (pre : List Block) (h : ∀ x ∈ pre, x.imgs = []) :
    blocksImgs pre = [] := by
  induction pre with
  | nil => rfl
  | cons b rest ih =>
    have hb := h b (List.mem_cons_self _ _)
    have hr := ih (fun x hx => h x (List.mem_cons_of_mem _ hx))
    simp [blocksImgs, hb]
    simpa [blocksImgs] using hr

/-- Body images of a concatenation. -/
theorem blocksImgs_append (l1 l2 : List Block) :
    blocksImgs (l1 ++ l2) = blocksImgs l1 ++ blocksImgs l2 := by
  simp [blocksImgs]

/-- C2 (amended): body/cover mutual exclusivity holds only under a
uniqueness premise.  When the blog extractor succeeds and the cover URL
matches **at most one** image of the sanitized body, the returned CoverImage
has the og:image URL and no `<img>` remaining in `bodyHtml` has that URL as
its `src`.  (Per the counterexample, a body referencing the cover twice
keeps the second copy, and the junior.guru extractor removes nothing.) -/
theorem c2_cover_mutual_exclusivity (base : JsUrl) (bs : List Block) (coverUrl : String)
    (env : ImgEnv) (cov : CoverImage) (rest : List Block)
    (hok : blogCoverStage base bs coverUrl env = .ok (cov, rest))
    (huniq : (blocksImgs (blogSanitizedClone base bs)).countP
        (fun i => i.src == some coverUrl) ≤ 1) :
    cov.url = coverUrl ∧ ∀ img ∈ blocksImgs rest, img.src ≠ some cov.url := by
  unfold blogCoverStage extractCoverImage at hok
  cases ho : blocksImgs bs with
  | nil =>
    simp only [ho] at hok
    exact absurd hok (by simp)
  | cons o0 orest =>
    simp only [ho, blocksImgs_clone, List.map_cons, List.isEmpty_cons] at hok
    by_cases hmis : imgAbs base o0 = "" ∨ imgAbs base o0 ≠ coverUrl
    · rw [if_pos hmis] at hok
      exact absurd hok (by simp)
    · rw [if_neg hmis] at hok
      push_neg at hmis
      obtain ⟨hne, heq⟩ := hmis
      have hcne : coverUrl ≠ "" := heq ▸ hne
      obtain ⟨s0, hs0, hs0ne, hs0abs⟩ :
          ∃ s, o0.src = some s ∧ s ≠ "" ∧ toAbsoluteUrl base s = coverUrl := by
        cases hsrc : o0.src with
        | none => exact absurd (by simp [imgAbs, hsrc]) hne
        | some s =>
          by_cases hse : s = ""
          · exact absurd (by simp [imgAbs, hsrc, hse, toAbsoluteUrl]) hne
          · exact ⟨s, rfl, hse, by rw [← heq]; simp [imgAbs, hsrc]⟩
      have hp0 : coverSrcMatches base coverUrl o0 = true := by
        simp [coverSrcMatches, hs0, hs0ne, hs0abs, hcne]
      rw [jsFindIdx_head _ _ _ hp0] at hok
      have hclone_ne : blocksImgs (blogSanitizedClone base bs) ≠ [] := by
        rw [blocksImgs_clone, ho]
        simp
      obtain ⟨pre, b, post, hrem, hdecomp, hpre, hbne⟩ :=
        removeContainingBlock_zero _ hclone_ne
      simp only [List.get?] at hok
      rw [hrem] at hok
      simp only [Bool.false_eq_true, if_false, Except.ok.injEq, Prod.mk.injEq] at hok
      have hcovurl : cov.url = coverUrl := by rw [← hok.1]
      refine ⟨hcovurl, ?_⟩
      intro img hmem
      have hpred0 : ((sanitizeImg base o0).src == some coverUrl) = true := by
        have hsan : sanitizeAttr base s0 = coverUrl := by
          rw [sanitizeAttr_eq_toAbsoluteUrl base s0 (by rw [hs0abs]; exact hcne), hs0abs]
        simp [sanitizeImg, hs0, hsan]
      have hcloneImgs : blocksImgs (blogSanitizedClone base bs) =
          b.imgs ++ blocksImgs post := by
        rw [hdecomp, blocksImgs_append]
        rw [blocksImgs_eq_nil_of pre hpre]
        simp [blocksImgs]
      have hhead : ∃ btail, b.imgs = sanitizeImg base o0 :: btail := by
        cases hbi : b.imgs with
        | nil => exact absurd hbi hbne
        | cons bi0 btail =>
          have : blocksImgs (blogSanitizedClone base bs) =
              bi0 :: (btail ++ blocksImgs post) := by
            rw [hcloneImgs, hbi]; simp
          rw [blocksImgs_clone, ho, List.map_cons] at this
          exact ⟨btail, by rw [(List.cons.inj this).1]⟩
      obtain ⟨btail, hbi⟩ := hhead
      have hcount : ((b.imgs ++ blocksImgs post).countP (fun i => i.src == some coverUrl)) ≤ 1 := by
        rw [← hcloneImgs]
        exact huniq
      rw [List.countP_append, hbi, List.countP_cons] at hcount
      simp only [hpred0, if_true] at hcount
      have hpost0 : (blocksImgs post).countP (fun i => i.src == some coverUrl) = 0 := by
        omega
      have hmem' : img ∈ blocksImgs post := by
        rw [← hok.2] at hmem
        rw [blocksImgs_append, blocksImgs_eq_nil_of pre hpre] at hmem
        simpa using hmem
      have := (List.countP_eq_zero).mp hpost0 img hmem'
      rw [hcovurl]
      simpa using this

/-- C1 (amended): the first-image-must-match-og:image precondition is a hard
precondition of the honzajavorek.cz blog extractor only.  Whenever that
extractor reaches cover extraction and the first body image does not resolve
to the og:image URL, the whole extraction fails with the cover-mismatch
error and no ArticleRecord is produced; the junior.guru extractor performs
no such check and can never fail with the cover-mismatch error. -/
theorem c1_cover_mismatch_blog_only (doc : BlogDoc) (env : ImgEnv) (currentUrl : JsUrl)
    (body : List Block) (coverUrl : String) (o0 : Img) (rest0 : List Img)
    (h1 : ensureBlogUrlE doc.locationHref = .ok currentUrl)
    (h2 : doc.articlePresent = true)
    (h3 : doc.bodyBlocks = some body)
    (h4 : getOgImageUrlBlog doc currentUrl = .ok coverUrl)
    (h5 : blocksImgs body = o0 :: rest0)
    (h6 : imgAbs currentUrl o0 ≠ coverUrl) :
    blogScrape doc env = .error .coverMismatch ∧
    ∀ (jdoc : JgDoc) (jenv : ImgEnv), jgScrape jdoc jenv ≠ .error .coverMismatch := by
  refine ⟨?_, fun jdoc jenv => jgScrape_no_coverMismatch jdoc jenv⟩
  have hcov : blogCoverStage currentUrl body coverUrl env = .error .coverMismatch := by
    unfold blogCoverStage extractCoverImage
    simp only [blocksImgs_clone, h5, List.map_cons, List.isEmpty_cons,
      Bool.false_eq_true, if_false]
    rw [if_pos (Or.inr h6)]
  unfold blogScrape
  simp only [h1, h2, Bool.not_true, Bool.false_eq_true, if_false, h3, h4, hcov]


/-- C1 (counterexample): on a junior.guru newsletter whose first (and only)
body image resolves to a URL different from the page's og:image, extraction
does **not** throw a cover-mismatch error: it succeeds and returns an
ArticleRecord whose CoverImage is built from the og:image metadata alone. -/
theorem c1_counterexample :
    (jgScrape exJgDocMismatch exImgEnvNone).toOption.map
        (fun r => r.coverImage.map CoverImage.url) =
      some (some "https://junior.guru/img/cover.jpg") ∧
    exJgDocMismatch.issue.map (fun i => (blocksImgs i.blocks).map (imgAbs exJgBase)) =
      some ["https://junior.guru/news/42/other.jpg"] ∧
    "https://junior.guru/news/42/other.jpg" ≠ "https://junior.guru/img/cover.jpg" :=
  ⟨by decide, by decide, by decide⟩

/-- C1 (witness): the amended theorem applied to a blog page whose first
body image is not the og:image. -/
theorem c1_witness :
    (ensureBlogUrlE exBlogDocMismatch.locationHref = .ok exBlogBase ∧
      exBlogDocMismatch.articlePresent = true ∧
      exBlogDocMismatch.bodyBlocks = some [.figure [exOtherImg] none] ∧
      getOgImageUrlBlog exBlogDocMismatch exBlogBase =
        .ok "https://honzajavorek.cz/img/c.png" ∧
      blocksImgs [Block.figure [exOtherImg] none] = exOtherImg :: [] ∧
      imgAbs exBlogBase exOtherImg ≠ "https://honzajavorek.cz/img/c.png") ∧
    (blogScrape exBlogDocMismatch exImgEnvNone = .error .coverMismatch ∧
      ∀ (jdoc : JgDoc) (jenv : ImgEnv), jgScrape jdoc jenv ≠ .error .coverMismatch) :=
  ⟨⟨by decide, by decide, by decide, by decide, by decide, by decide⟩,
    c1_cover_mismatch_blog_only exBlogDocMismatch exImgEnvNone exBlogBase
      [.figure [exOtherImg] none] "https://honzajavorek.cz/img/c.png" exOtherImg []
      (by decide) (by decide) (by decide) (by decide) (by decide) (by decide)⟩

/-- C2 (counterexample): a supported blog page whose body references the
og:image cover **twice** (each in its own figure).  Extraction succeeds and
returns a CoverImage, but `bodyHtml` still contains an `<img>` whose `src`
equals `CoverImage.url` — only the first matching figure was removed, so the
mutual-exclusivity invariant fails as stated. -/
theorem c2_counterexample :
    (blogScrape exBlogDocDup exImgEnvNone).toOption.map
        (fun r => (r.coverImage.map CoverImage.url,
          (blocksImgs r.bodyHtml).map Img.src)) =
      some (some "https://honzajavorek.cz/img/c.png",
        [some "https://honzajavorek.cz/img/c.png"]) := by
  decide

/-- C2 (witness): the amended theorem applied to a body containing the cover
exactly once. -/
theorem c2_witness :
    (blogCoverStage exBlogBase exC2Body "https://honzajavorek.cz/img/c.png" exImgEnvNone =
        .ok (exC2Cov, [Block.para "World"]) ∧
      (blocksImgs (blogSanitizedClone exBlogBase exC2Body)).countP
        (fun i => i.src == some "https://honzajavorek.cz/img/c.png") ≤ 1) ∧
    (exC2Cov.url = "https://honzajavorek.cz/img/c.png" ∧
      ∀ img ∈ blocksImgs [Block.para "World"], img.src ≠ some exC2Cov.url) :=
  ⟨⟨by decide, by decide⟩,
    c2_cover_mutual_exclusivity exBlogBase exC2Body
      "https://honzajavorek.cz/img/c.png" exImgEnvNone exC2Cov [Block.para "World"]
      (by decide) (by decide)⟩

end Posse
